import Mathlib

/-!
Verification of the swampy `sync.py` thread simulator.

The development shallowly embeds the simulator: the per-thread
instruction-pointer engine (`Thread`), the synchronization primitives
(`Semaphore`, `Barrier`), and the scheduler (`Sync`).  Instructions are the
raw text lines of a script, exactly as the Python code manipulates them.
The Python built-ins `compile`/`exec`/`eval` — the statement evaluator the
simulator delegates to — are external to the module; they are modelled for
the statement forms the simulator's scripts use (see `tryExec`).
-/

namespace Swampy

/-! ## Character and string utilities mirroring the Python string methods -/

/-- Whitespace characters recognised by Python's `str.strip`/`str.split`. -/
def isPyWs (c : Char) : Bool :=
  c = ' ' || c = '\t' || c = '\n' || c = '\r'

/-- Tab expansion with tab size 4, tracking the current column
(Python `str.expandtabs(4)`). -/
def expandTabsAux : List Char → Nat → List Char
  | [], _ => []
  | c :: cs, col =>
    if c = '\t' then
      let k := 4 - col % 4
      List.replicate k ' ' ++ expandTabsAux cs (col + k)
    else if c = '\n' ∨ c = '\r' then
      c :: expandTabsAux cs 0
    else
      c :: expandTabsAux cs (col + 1)

/-- Number of leading spaces of a line after expanding tabs
(`Thread.count_spaces`: `len(s) - len(s.lstrip(" "))` on `s.expandtabs(4)`). -/
def count_spaces (source : String) : Nat :=
  ((expandTabsAux source.data 0).takeWhile (fun c => c = ' ')).length

/-- Python `str.strip()`. -/
def pyStrip (s : String) : String :=
  ⟨((s.data.dropWhile isPyWs).reverse.dropWhile isPyWs).reverse⟩

/-- Python `str.rstrip()`. -/
def pyRStrip (s : String) : String :=
  ⟨(s.data.reverse.dropWhile isPyWs).reverse⟩

/-- Python `str.split()` (split on runs of whitespace, no empty words). -/
def pySplitAux : List Char → List Char → List String
  | [], acc => if acc = [] then [] else [⟨acc.reverse⟩]
  | c :: cs, acc =>
    if isPyWs c then
      if acc = [] then pySplitAux cs [] else ⟨acc.reverse⟩ :: pySplitAux cs []
    else pySplitAux cs (c :: acc)

def pySplit (s : String) : List String := pySplitAux s.data []

/-- Python `str.startswith`. -/
def pyStartsWith (s : String) (p : String) : Bool :=
  s.data.take p.data.length = p.data

/-- Python `str.endswith(":")`, used by the header check. -/
def endsWithColon (s : String) : Bool :=
  s.data.getLast? = some ':'

/-- Python slice `s[n:-1]` on a string. -/
def strSlice (s : String) (n : Nat) : String :=
  ⟨(s.data.drop n).dropLast⟩

def parseNatAux : List Char → Nat → Option Nat
  | [], acc => some acc
  | c :: cs, acc =>
    if c.isDigit then parseNatAux cs (acc * 10 + (c.toNat - 48)) else none

/-- Parse a non-empty decimal digit string (regex `\d+`, Python `int`). -/
def parseNat? (s : String) : Option Nat :=
  match s.data with
  | [] => none
  | l => parseNatAux l 0

/-- Parse an integer literal (only the non-negative literals the scripts use). -/
def parseInt? (s : String) : Option Int :=
  (parseNat? s).map (Int.ofNat ·)

/-- Python keywords: an identifier may not be one of these. -/
def pyKeywords : List String :=
  ["if", "else", "while", "def", "class", "pass", "return", "for", "in",
   "not", "and", "or", "True", "False", "None", "import", "lambda"]

def isIdentChar (c : Char) : Bool := c.isAlphanum || c = '_'

/-- A plain Python identifier that is not a keyword. -/
def isIdent (s : String) : Bool :=
  match s.data with
  | [] => false
  | c :: cs => (c.isAlpha || c = '_') && cs.all isIdentChar && !(pyKeywords.contains s)

/-! ## Errors

The Python exceptions the simulator can raise or propagate.  `outOfFuel` is
the value returned when one of the modelled `while` loops exceeds its
iteration bound; it stands for a run of the Python loop that does not
terminate. -/

inductive Err where
  | synError (msg : String)
  | nameError
  | attrError
  | typeError
  | indexError
  | assertFailed (msg : String)
  | outOfFuel
  deriving Repr, DecidableEq

instance exceptDecEq {ε α : Type} [DecidableEq ε] [DecidableEq α] :
    DecidableEq (Except ε α) := fun x y =>
  match x, y with
  | .ok a, .ok b =>
    if h : a = b then .isTrue (by rw [h])
    else .isFalse (by intro hc; injection hc; exact h ‹_›)
  | .error a, .error b =>
    if h : a = b then .isTrue (by rw [h])
    else .isFalse (by intro hc; injection hc; exact h ‹_›)
  | .ok _, .error _ => .isFalse (by intro hc; exact Except.noConfusion hc)
  | .error _, .ok _ => .isFalse (by intro hc; exact Except.noConfusion hc)

/-! ## Data model -/

/-- `Semaphore`: integer counter and wait queue of thread ids
(the Python queue holds references to the blocked `Thread` objects;
here threads live in a store indexed by id). -/
structure Semaphore where
  n : Int
  queue : List Nat
  deriving Repr, DecidableEq

/-- `Barrier`: party count, arrival counter, and references into the
semaphore heap for `mutex`, `turnstile` and `turnstile2`. -/
structure Barrier where
  n : Int
  count : Int
  mutex : Nat
  turnstile : Nat
  turnstile2 : Nat
  deriving Repr, DecidableEq

/-- Values storable in the shared environment: integers, or references to
heap-allocated `Semaphore`/`Barrier` objects (Python variables hold object
references, so assignment aliases). -/
inductive Val where
  | int (i : Int)
  | semRef (r : Nat)
  | barrierRef (r : Nat)
  deriving Repr, DecidableEq

/-- One simulated thread (`Thread.__init__`).  `while_stack` keeps the most
recent frame first (the Python list appends and pops at its tail);
`flag_map` is the `indent -> last if-result` dictionary, most recent binding
first. -/
structure Thread where
  name : String
  instructions : List String
  looping : Bool
  flag_map : List (Nat × Bool)
  while_stack : List (Nat × Int)
  iptr : Int
  queued : Bool
  deriving Repr, DecidableEq

instance : Inhabited Thread := ⟨⟨"", [], false, [], [], 0, false⟩⟩

/-- The mutable world shared by all threads: the `sync.locals` bindings, the
heaps of semaphore and barrier objects, and the store of every thread ever
created (thread id = position in the store).  `defsSubmitted` and `events`
are observation traces: the definitions handed to the evaluator by
`handle_def`, and the barrier phase completions, in execution order. -/
structure Sim where
  locals : List (String × Val)
  sems : List Semaphore
  barriers : List Barrier
  store : List Thread
  defsSubmitted : List String
  events : List (Nat × String)
  deriving Repr, DecidableEq

def Sim.thread (sim : Sim) (tid : Nat) : Thread := sim.store.getD tid default

def Sim.setThread (sim : Sim) (tid : Nat) (t : Thread) : Sim :=
  { sim with store := sim.store.set tid t }

def Sim.sem (sim : Sim) (r : Nat) : Semaphore := sim.sems.getD r ⟨0, []⟩

def Sim.setSem (sim : Sim) (r : Nat) (s : Semaphore) : Sim :=
  { sim with sems := sim.sems.set r s }

def Sim.barrier (sim : Sim) (r : Nat) : Barrier := sim.barriers.getD r ⟨0, 0, 0, 0, 0⟩

def Sim.setBarrier (sim : Sim) (r : Nat) (b : Barrier) : Sim :=
  { sim with barriers := sim.barriers.set r b }

/-- Dictionary lookup in the shared environment. -/
def lookupVar (locals : List (String × Val)) (x : String) : Option Val :=
  (locals.find? (fun p => p.1 = x)).map (·.2)

/-- Dictionary assignment: the newest binding shadows older ones. -/
def setVar (locals : List (String × Val)) (x : String) (v : Val) :
    List (String × Val) :=
  (x, v) :: locals

/-- Lookup in a thread's `flag_map` dictionary. -/
def lookupFlag (m : List (Nat × Bool)) (k : Nat) : Option Bool :=
  (m.find? (fun p => p.1 = k)).map (·.2)

/-- The scheduler configuration (`Options` dataclass).  The `delay` field,
a float passed only to `time.sleep`, has no effect on any state and is
omitted. -/
structure Options where
  max_steps : Option Nat
  roundrobin : Bool
  verbose : Bool
  loop : Bool
  no_deadlocks : Bool
  deriving Repr, DecidableEq

/-- The scheduler (`Sync`): its options, the shared world, the
registration-ordered list of active thread ids (`self.threads`), and the
`running` flag. -/
structure SyncState where
  options : Options
  sim : Sim
  threads : List Nat
  running : Bool
  deriving Repr, DecidableEq

/-- Oracle standing for `random.choice`: given the list chosen from, it
produces an index (reduced modulo the length at the use site). -/
def Pick := List Nat → Nat

def pick0 : Pick := fun _ => 0

/-! ## Thread engine -/

/-- Python list indexing with an `int` index: a negative index counts from
the end.  Out-of-range access (which the engine's `finished` guards prevent)
returns the empty string to keep the function total. -/
def pyGetStr (l : List String) (i : Int) : String :=
  if i < 0 then l.getD (l.length - (-i).toNat) "" else l.getD i.toNat ""

namespace Thread

/-- `Thread.enqueue`: puts this thread into queue. -/
def enqueue (t : Thread) : Thread := { t with queued := true }

/-- `Thread.dequeue`: removes this thread from queue. -/
def dequeue (t : Thread) : Thread := { t with queued := false }

/-- `Thread.jump_to`: moves the thread to the given row. -/
def jump_to (t : Thread) (row : Int) : Thread := { t with iptr := row }

/-- `Thread.balk`: `self.iptr = -1` (next_row is called after execution,
making the iptr 0). -/
def balk (t : Thread) : Thread := { t with iptr := -1 }

/-- `Thread.start`: moves the thread to the top of the column. -/
def start (t : Thread) : Thread := { t with queued := false, iptr := 0 }

/-- `Thread.finished`: `iptr >= len(instructions)`. -/
def finished (t : Thread) : Bool :=
  (t.instructions.length : Int) ≤ t.iptr

/-- `Thread.next_row`: moves to the next row, unless the thread is queued. -/
def next_row (t : Thread) : Thread :=
  if t.queued then t else { t with iptr := t.iptr + 1 }

/-- `Thread.next_loop`: moves to the next row, looping to the top if
necessary. -/
def next_loop (t : Thread) : Thread :=
  let t := t.next_row
  if t.finished ∧ t.looping then t.start else t

/-- `Thread.check_end_while`: if the top `while` frame's indentation is not
exceeded by the current line, pop the frame and jump back to the header row. -/
def check_end_while (t : Thread) : Thread :=
  match t.while_stack with
  | [] => t
  | (indent, row) :: rest =>
    let source := pyGetStr t.instructions t.iptr
    if count_spaces source ≤ indent then
      { t with while_stack := rest }.jump_to row
    else t

/-- Second loop of `Thread.skip_body`: keep consuming lines (appending each,
blank lines included) while their indentation exceeds the header's, stopping
at the first line whose indentation is at most the header's, or at
end-of-thread.  The fuel argument bounds the iterations of the Python
`while True` loop. -/
def skip_body_loop2 (head_indent : Nat) :
    Nat → Thread → List String → String → Except Err (List String × Thread)
  | 0, _, _, _ => .error .outOfFuel
  | fuel + 1, t, lines, source =>
    let lines := lines ++ [source]
    let t := t.next_row
    if t.finished then .ok (lines, t)
    else
      let source := pyGetStr t.instructions t.iptr
      if source = "" then skip_body_loop2 head_indent fuel t lines source
      else if count_spaces source ≤ head_indent then .ok (lines, t)
      else skip_body_loop2 head_indent fuel t lines source

/-- First loop of `Thread.skip_body`: scan forward, skipping blank lines,
until a non-blank line is found; its indentation must exceed the header's
(else the "body must be indented" error), after which the consuming loop
takes over. -/
def skip_body_loop1 (head_indent : Nat) :
    Nat → Thread → List String → Except Err (List String × Thread)
  | 0, _, _ => .error .outOfFuel
  | fuel + 1, t, lines =>
    let t := t.next_row
    if t.finished then .ok (lines, t)
    else
      let source := pyGetStr t.instructions t.iptr
      if source = "" then skip_body_loop1 head_indent fuel t lines
      else
        let body_indent := count_spaces source
        if body_indent ≤ head_indent then
          .error (.synError "Body of compound statement must be indented.")
        else skip_body_loop2 head_indent fuel t lines source

/-- `Thread.skip_body`: skips an indented block, returning the consumed
lines (header included) and the thread with its pointer on the stopping
line (or past the end). -/
def skip_body (t : Thread) : Except Err (List String × Thread) :=
  if t.finished then .ok ([], t)
  else
    let source := pyGetStr t.instructions t.iptr
    skip_body_loop1 (count_spaces source) (t.instructions.length + 2) t [source]

end Thread

/-! ## Synchronization primitives

The operations act on the whole `Sim` because blocking and unblocking touch
the thread store; the acting thread (`current_thread`) is passed explicitly. -/

/-- `Semaphore.wait` by thread `tid`: decrement `n`; if the result is
negative, `block()` — enqueue the calling thread and append it to the wait
queue. -/
def semWait (sim : Sim) (r : Nat) (tid : Nat) : Sim :=
  let s := sim.sem r
  let n := s.n - 1
  if n < 0 then
    let sim := sim.setSem r { s with n := n, queue := s.queue ++ [tid] }
    sim.setThread tid (sim.thread tid).enqueue
  else
    sim.setSem r { s with n := n }

/-- `Semaphore.unblock`: choose a queued thread (`random.choice` via the
`pick` oracle), remove it from the queue, dequeue it and advance it with
`next_loop`. -/
def semUnblock (pick : Pick) (sim : Sim) (r : Nat) : Sim :=
  let s := sim.sem r
  let tid := s.queue.getD (pick s.queue % s.queue.length) 0
  let sim := sim.setSem r { s with queue := s.queue.erase tid }
  sim.setThread tid (sim.thread tid).dequeue.next_loop

/-- The `for i in range(n)` loop of `Semaphore.signal`: increment `n` once
per iteration, unblocking one waiter whenever the queue is non-empty. -/
def semSignalLoop (pick : Pick) (r : Nat) : Nat → Sim → Sim
  | 0, sim => sim
  | k + 1, sim =>
    let s := sim.sem r
    let sim := sim.setSem r { s with n := s.n + 1 }
    let sim := if (sim.sem r).queue ≠ [] then semUnblock pick sim r else sim
    semSignalLoop pick r k sim

/-- `Semaphore.signal(n)`: `range` of a non-positive argument is empty. -/
def semSignal (pick : Pick) (sim : Sim) (r : Nat) (k : Int) : Sim :=
  semSignalLoop pick r k.toNat sim

/-- `Barrier.phase1` run by thread `tid`.  The trailing event records that
the phase1 code ran to completion for `tid`. -/
def barrierPhase1 (pick : Pick) (sim : Sim) (br : Nat) (tid : Nat) : Sim :=
  let b := sim.barrier br
  let sim := semWait sim b.mutex tid
  let sim := sim.setBarrier br { b with count := b.count + 1 }
  let b := sim.barrier br
  let sim := if b.count = b.n then semSignal pick sim b.turnstile b.n else sim
  let sim := semSignal pick sim b.mutex 1
  let sim := semWait sim b.turnstile tid
  { sim with events := sim.events ++ [(tid, "phase1")] }

/-- `Barrier.phase2` run by thread `tid`, with a completion event. -/
def barrierPhase2 (pick : Pick) (sim : Sim) (br : Nat) (tid : Nat) : Sim :=
  let b := sim.barrier br
  let sim := semWait sim b.mutex tid
  let sim := sim.setBarrier br { b with count := b.count - 1 }
  let b := sim.barrier br
  let sim := if b.count = 0 then semSignal pick sim b.turnstile2 b.n else sim
  let sim := semSignal pick sim b.mutex 1
  let sim := semWait sim b.turnstile2 tid
  { sim with events := sim.events ++ [(tid, "phase2")] }

/-- `Barrier.wait`: phase1 then phase2, all within the caller's atomic
step. -/
def barrierWait (pick : Pick) (sim : Sim) (br : Nat) (tid : Nat) : Sim :=
  barrierPhase2 pick (barrierPhase1 pick sim br tid) br tid

/-! ## The statement evaluator

Modelled from the spec: the StatementEvaluator executes one line of
pseudo-code against the shared environment, or evaluates a boolean
condition.  In the Python code this is `compile`/`exec`/`eval`, external
interpreter machinery; it is modelled here for the statement forms the
simulator's scripts use — assignments of literals, variables, sums and
differences, `Semaphore`/`Barrier` construction, method calls
`obj.wait()` / `obj.signal()` / `obj.signal(k)` / `obj.phase1()` /
`obj.phase2()`, the calls `noop()` and `balk()`, `pass`, bare variable
reads, and blank lines.  A line outside these forms is reported as a
compile-time syntax failure, which is also how the headers
(`if`/`while`/`else:`/`def`/`class`) reach the engine's fallback handling,
exactly as a Python `SyntaxError` does. -/

inductive ExecOutcome where
  | ok (sim : Sim)
  | fail (e : Err)
  | syntaxFail
  deriving Repr, DecidableEq

def splitAtFirst (c : Char) : List Char → Option (List Char × List Char)
  | [] => none
  | x :: xs =>
    if x = c then some ([], xs)
    else (splitAtFirst c xs).map (fun p => (x :: p.1, p.2))

/-- Parse a call token `name(arg)` or `obj.method(arg)` with an optional
single integer-literal argument. -/
def parseCallToken (tok : String) : Option (Option String × String × Option Int) :=
  match splitAtFirst '(' tok.data with
  | none => none
  | some (pre, rest) =>
    if rest.getLast? = some ')' then
      let argChars := rest.dropLast
      let arg? : Option (Option Int) :=
        if argChars = [] then some none
        else match parseInt? (pyStrip ⟨argChars⟩) with
          | some i => some (some i)
          | none => none
      match arg? with
      | none => none
      | some arg =>
        match splitAtFirst '.' pre with
        | none =>
          if isIdent ⟨pre⟩ then some (none, ⟨pre⟩, arg) else none
        | some (obj, meth) =>
          if isIdent ⟨obj⟩ && isIdent ⟨meth⟩ then some (some ⟨obj⟩, ⟨meth⟩, arg)
          else none
    else none

/-- Run a parsed call as a statement. -/
def execCall (pick : Pick) (sim : Sim) (tid : Nat)
    (recv : Option String) (fname : String) (arg : Option Int) : ExecOutcome :=
  match recv with
  | none =>
    if fname = "noop" then .ok sim
    else if fname = "balk" then .ok (sim.setThread tid (sim.thread tid).balk)
    else if fname = "pid" then .ok sim
    else .fail .nameError
  | some obj =>
    match lookupVar sim.locals obj with
    | none => .fail .nameError
    | some (.int _) => .fail .attrError
    | some (.semRef r) =>
      if fname = "wait" then
        match arg with
        | none => .ok (semWait sim r tid)
        | some _ => .fail .typeError
      else if fname = "signal" then .ok (semSignal pick sim r (arg.getD 1))
      else .fail .attrError
    | some (.barrierRef r) =>
      match arg with
      | some _ => .fail .typeError
      | none =>
        if fname = "wait" then .ok (barrierWait pick sim r tid)
        else if fname = "phase1" then .ok (barrierPhase1 pick sim r tid)
        else if fname = "phase2" then .ok (barrierPhase2 pick sim r tid)
        else .fail .attrError

/-- Whether a token is syntactically a valid operand (integer literal or
identifier): this decides compile-time acceptance, before any name lookup. -/
def operandOk (tok : String) : Bool :=
  (parseInt? tok).isSome || isIdent tok

/-- Evaluate an operand at run time. -/
def evalOperand (sim : Sim) (tok : String) : Except Err Int :=
  match parseInt? tok with
  | some i => .ok i
  | none =>
    match lookupVar sim.locals tok with
    | some (.int i) => .ok i
    | some _ => .error .typeError
    | none => .error .nameError

/-- Evaluate a single-token assignment right-hand side: a literal, a
variable (copying the reference, so semaphores alias), or a
`Semaphore(k)` / `Barrier(k)` construction that allocates on the heap. -/
def evalRhsTok (sim : Sim) (rhs : String) : Option (Except Err (Sim × Val)) :=
  match parseInt? rhs with
  | some i => some (.ok (sim, .int i))
  | none =>
    if isIdent rhs then
      some (match lookupVar sim.locals rhs with
        | some v => .ok (sim, v)
        | none => .error .nameError)
    else
      match parseCallToken rhs with
      | some (none, "Semaphore", arg) =>
        some (.ok ({ sim with sems := sim.sems ++ [⟨arg.getD 0, []⟩] },
          .semRef sim.sems.length))
      | some (none, "FifoSemaphore", _) => none
      | some (none, "Barrier", arg) =>
        match arg with
        | none => some (.error .typeError)
        | some k =>
          some (.ok ({ sim with
              sems := sim.sems ++ [⟨1, []⟩, ⟨0, []⟩, ⟨0, []⟩],
              barriers := sim.barriers ++
                [⟨k, 0, sim.sems.length, sim.sems.length + 1, sim.sems.length + 2⟩] },
            .barrierRef sim.barriers.length))
      | _ => none

/-- The modelled `compile`+`exec` of one stripped line: a single token is a
`pass`, a bare variable read, or a call; three tokens around `=` are an
assignment; five tokens around `=` are an assignment of a sum or
difference. -/
def tryExec (pick : Pick) (sim : Sim) (tid : Nat) (s : String) : ExecOutcome :=
  if s = "" then .ok sim
  else
    let toks := pySplit s
    if toks.length = 1 then
      let tok := toks.getD 0 ""
      if tok = "pass" then .ok sim
      else if isIdent tok then
        match lookupVar sim.locals tok with
        | some _ => .ok sim
        | none => .fail .nameError
      else
        match parseCallToken tok with
        | some (recv, fname, arg) => execCall pick sim tid recv fname arg
        | none => .syntaxFail
    else if toks.length = 3 ∧ toks.getD 1 "" = "=" then
      let x := toks.getD 0 ""
      let rhs := toks.getD 2 ""
      if isIdent x then
        match evalRhsTok sim rhs with
        | some (.ok (sim', v)) => .ok { sim' with locals := setVar sim'.locals x v }
        | some (.error e) => .fail e
        | none => .syntaxFail
      else .syntaxFail
    else if toks.length = 5 ∧ toks.getD 1 "" = "=" then
      let x := toks.getD 0 ""
      let a := toks.getD 2 ""
      let op := toks.getD 3 ""
      let b := toks.getD 4 ""
      if isIdent x && (op = "+" || op = "-") && operandOk a && operandOk b then
        match evalOperand sim a, evalOperand sim b with
        | .ok va, .ok vb =>
          let v : Int := if op = "+" then va + vb else va - vb
          .ok { sim with locals := setVar sim.locals x (.int v) }
        | .error e, _ => .fail e
        | _, .error e => .fail e
      else .syntaxFail
    else .syntaxFail

/-- The modelled `eval` of a boolean condition. -/
def evalCond (sim : Sim) (condition : String) : Except Err Bool :=
  match pySplit condition with
  | [a, op, b] =>
    if operandOk a && operandOk b then
      match evalOperand sim a, evalOperand sim b with
      | .ok va, .ok vb =>
        if op = "<" then .ok (va < vb)
        else if op = "<=" then .ok (va ≤ vb)
        else if op = ">" then .ok (vb < va)
        else if op = ">=" then .ok (vb ≤ va)
        else if op = "==" then .ok (va = vb)
        else if op = "!=" then .ok (va ≠ vb)
        else .error (.synError condition)
      | .error e, _ => .error e
      | _, .error e => .error e
    else .error (.synError condition)
  | ["True"] => .ok true
  | ["False"] => .ok false
  | [a] =>
    if operandOk a then (evalOperand sim a).map (fun v => v ≠ 0)
    else .error (.synError condition)
  | _ => .error (.synError condition)

/-! ## Engine: executing one line -/

/-- `Thread.handle_conditional`: evaluate the condition part of an
`if`/`while`/`else:` header for the thread `tid`; returns the flag that
decides whether the body is entered. -/
def handle_conditional (sim : Sim) (tid : Nat) (keyword : String)
    (source : String) : Except Err (Sim × Bool) :=
  let s := pyStrip source
  if ¬ endsWithColon s then .error (.synError "Header must end with :")
  else if keyword = "if" then
    let condition := pyStrip (strSlice s 2)
    match evalCond sim condition with
    | .error e => .error e
    | .ok flag =>
      let indent := count_spaces source
      let t := sim.thread tid
      .ok (sim.setThread tid { t with flag_map := (indent, flag) :: t.flag_map }, flag)
  else if keyword = "while" then
    let condition := pyStrip (strSlice s 5)
    match evalCond sim condition with
    | .error e => .error e
    | .ok flag =>
      if flag then
        let indent := count_spaces source
        let t := sim.thread tid
        .ok (sim.setThread tid
          { t with while_stack := (indent, t.iptr) :: t.while_stack }, flag)
      else .ok (sim, flag)
  else
    let indent := count_spaces source
    match lookupFlag (sim.thread tid).flag_map indent with
    | some flag => .ok (sim, !flag)
    | none => .error (.synError "else does not match if")

/-- `Thread.handle_def`: capture the body with `skip_body`, submit the
joined text to the evaluator as one definition (recorded in
`defsSubmitted`; the evaluator binds the defined name), and reset the
pointer to the header row. -/
def handle_def (sim : Sim) (tid : Nat) : Except Err Sim :=
  let t := sim.thread tid
  let head_line := t.iptr
  match t.skip_body with
  | .error e => .error e
  | .ok (lines, t') =>
    let definition := String.intercalate "\n" lines ++ "\n"
    let sim := { sim with defsSubmitted := sim.defsSubmitted ++ [definition] }
    .ok (sim.setThread tid { t' with iptr := head_line })

/-- `Thread.exec_line`: run one line of source in the shared context.  The
acting thread `tid` plays the role of the `current_thread` global.  A
compile-time syntax failure triggers the conditional/definition fallback
keyed on the first word; any other failure propagates. -/
def exec_line (pick : Pick) (sim : Sim) (tid : Nat) (source : String) :
    Except Err (Sim × Bool) :=
  let s := pyStrip source
  match tryExec pick sim tid s with
  | .ok sim' => .ok (sim', true)
  | .fail e => .error e
  | .syntaxFail =>
    match pySplit s with
    | [] => .error .indexError
    | keyword :: _ =>
      if keyword = "if" ∨ keyword = "else:" ∨ keyword = "while" then
        handle_conditional sim tid keyword source
      else if keyword = "def" ∨ keyword = "class" then
        match handle_def sim tid with
        | .error e => .error e
        | .ok sim' => .ok (sim', false)
      else .error (.synError s)

/-- `Thread.step`: execute the current line of thread `tid`, then either
move to the next row or skip to the end of a false conditional.  A queued
or finished thread does nothing. -/
def stepSim (pick : Pick) (sim : Sim) (tid : Nat) : Except Err Sim :=
  let t := sim.thread tid
  if t.queued then .ok sim
  else if t.finished then .ok sim
  else
    let t := t.check_end_while
    let sim := sim.setThread tid t
    let source := pyGetStr t.instructions t.iptr
    match exec_line pick sim tid source with
    | .error e => .error e
    | .ok (sim₁, flag) =>
      let t₁ := sim₁.thread tid
      if flag then .ok (sim₁.setThread tid t₁.next_row)
      else
        match t₁.skip_body with
        | .error e => .error e
        | .ok (_, t₂) => .ok (sim₁.setThread tid t₂)

/-- `Thread.step_loop`: step, restarting from the top on completion. -/
def stepLoopSim (pick : Pick) (sim : Sim) (tid : Nat) : Except Err Sim :=
  match stepSim pick sim tid with
  | .error e => .error e
  | .ok sim' =>
    let t := sim'.thread tid
    .ok (if t.finished then sim'.setThread tid t.start else sim')

/-- `Thread.run`: step until finished (used for the init column), with fuel
bounding the Python `while True` loop. -/
def threadRun (pick : Pick) : Nat → Sim → Nat → Except Err Sim
  | 0, _, _ => .error .outOfFuel
  | fuel + 1, sim, tid =>
    match stepSim pick sim tid with
    | .error e => .error e
    | .ok sim' =>
      if (sim'.thread tid).finished then .ok sim'
      else threadRun pick fuel sim' tid

/-! ## Scheduler (`Sync`) -/

namespace Sync

/-- `Sync.step_thread`: step the thread; if it finished, unregister it
(`self.threads.remove(thread)` removes the first occurrence). -/
def step_thread (pick : Pick) (st : SyncState) (tid : Nat) :
    Except Err SyncState :=
  match stepSim pick st.sim tid with
  | .error e => .error e
  | .ok sim' =>
    if (sim'.thread tid).finished then
      .ok { st with sim := sim', threads := st.threads.erase tid }
    else .ok { st with sim := sim' }

/-- `Sync.step_thread_loop`: loop-aware stepping, never unregisters. -/
def step_thread_loop (pick : Pick) (st : SyncState) (tid : Nat) :
    Except Err SyncState :=
  match stepLoopSim pick st.sim tid with
  | .error e => .error e
  | .ok sim' => .ok { st with sim := sim' }

/-- The `for thread in self.threads` loop of `Sync.step`, with Python's
index-based iterator semantics: the iterator keeps its own position, so
when the stepper removes the element just yielded, the list shifts left
under the iterator and the following element is silently skipped.  The
thread ids handed to the stepper are collected (in order) as an observation
trace.  Fuel bounds the iteration count. -/
def stepAux (stepper : SyncState → Nat → Except Err SyncState) :
    Nat → Nat → SyncState → List Nat → Except Err (SyncState × List Nat)
  | 0, _, _, _ => .error .outOfFuel
  | fuel + 1, i, st, visits =>
    if h : i < st.threads.length then
      let tid := st.threads.get ⟨i, h⟩
      match stepper st tid with
      | .error e => .error e
      | .ok st' => stepAux stepper fuel (i + 1) st' (visits ++ [tid])
    else .ok (st, visits)

/-- `Sync.step`: advance all the threads in order (round-robin tick). -/
def step (stepper : SyncState → Nat → Except Err SyncState) (st : SyncState) :
    Except Err (SyncState × List Nat) :=
  stepAux stepper (st.threads.length + 1) 0 st []

/-- `Sync.random_step`: advance one random runnable thread; if no thread is
runnable, fail (`assert False`) when `no_deadlocks` is set, else return
without advancing. -/
def random_step (pick : Pick)
    (stepper : SyncState → Nat → Except Err SyncState) (st : SyncState) :
    Except Err SyncState :=
  let threads := st.threads.filter (fun tid => !(st.sim.thread tid).queued)
  if threads = [] then
    if st.options.no_deadlocks then
      .error (.assertFailed "Threads are deadlocked - failing")
    else .ok st
  else
    let tid := threads.getD (pick threads % threads.length) 0
    stepper st tid

/-- One tick of `Sync.run_helper`, using the stepping strategy and
thread-stepper selected by the options exactly as `Sync.run` does. -/
def tick (pick : Pick) (st : SyncState) : Except Err SyncState :=
  let stepper := if st.options.loop then step_thread_loop pick else step_thread pick
  if st.options.roundrobin then (step stepper st).map (·.1)
  else random_step pick stepper st

/-- `Sync.run_helper`: tick until `running` is cleared, the active set
empties, or the configured `max_steps` is reached; `time.sleep(self.delay)`
has no state effect and is dropped.  Fuel bounds the Python `while` loop. -/
def run_helper (pick : Pick) : Nat → Nat → SyncState → Except Err SyncState
  | 0, _, _ => .error .outOfFuel
  | fuel + 1, step_count, st =>
    if ¬ st.running then .ok st
    else if st.threads = [] then .ok st
    else
      match tick pick st with
      | .error e => .error e
      | .ok st' =>
        let step_count := step_count + 1
        match st'.options.max_steps with
        | some m =>
          if m ≤ step_count then
            run_helper pick fuel step_count { st' with running := false }
          else run_helper pick fuel step_count st'
        | none => run_helper pick fuel step_count st'

/-- `Sync.run`: set `running` and drive the tick loop. -/
def run (pick : Pick) (fuel : Nat) (st : SyncState) : Except Err SyncState :=
  run_helper pick fuel 0 { st with running := true }

/-- `Sync.register`: append a new thread id to the active set. -/
def register (st : SyncState) (t : Thread) : SyncState :=
  { st with
    sim := { st.sim with store := st.sim.store ++ [t] },
    threads := st.threads ++ [st.sim.store.length] }

/-- A freshly constructed `Thread` (`Thread.__init__` followed by
`start()`). -/
def mkThread (block : List String) (name : String) (looping : Bool) : Thread :=
  ⟨name, block, looping, [], [], 0, false⟩

/-- `Sync.create_threads`: register `thread_count` copies of the block
(numbered `name-i` when more than one). -/
def create_threads (st : SyncState) (block : List String) (name : String)
    (thread_count : Nat) : SyncState :=
  if 1 < thread_count then
    (List.range thread_count).foldl
      (fun s i => register s (mkThread block (name ++ "-" ++ toString i) s.options.loop))
      st
  else register st (mkThread block name st.options.loop)

/-- Modelled from the spec: the marker-line regex
`##\s*thread\s+(.*?)(?:\s*\*\s*(\d+))?\s*$` (case-insensitive,
`re.match`), applied by `read_file` to each right-stripped line.  Python's
`re` engine is external; this matcher reproduces it on marker lines:
literal `##`, optional whitespace, `thread` in any case, at least one
whitespace, then the thread name, optionally followed by `*` and a copy
count. -/
def matchStartNewLine (line : String) : Option (String × Nat) :=
  match line.data with
  | '#' :: '#' :: rest =>
    let rest := rest.dropWhile isPyWs
    let lowered := (rest.take 6).map Char.toLower
    if lowered = "thread".data then
      let rest := rest.drop 6
      if rest.head?.elim false isPyWs then
        let rest := rest.dropWhile isPyWs
        match splitAtFirst '*' rest with
        | some (pre, post) =>
          match parseNat? (pyStrip ⟨post⟩) with
          | some k => some (pyRStrip ⟨pre⟩, k)
          | none => some (⟨rest⟩, 1)
        | none => some (⟨rest⟩, 1)
      else none
    else none
  | _ => none

/-- The line loop of `Sync.read_file` (file reading itself is external; the
function receives the file's lines).  Lines are right-stripped; a marker
line flushes the current block through `create_threads` and starts a new
one. -/
def read_fileAux (st : SyncState) :
    List String → List String → String → Nat → SyncState
  | [], block, name, thread_count => create_threads st block name thread_count
  | l :: ls, block, name, thread_count =>
    let l := pyRStrip l
    match matchStartNewLine l with
    | some (name', cnt') =>
      read_fileAux (create_threads st block name thread_count) ls [] name' cnt'
    | none => read_fileAux st ls (block ++ [l]) name thread_count

/-- `Sync.read_file`: anything before the first marker is the `init`
block. -/
def read_file (st : SyncState) (fileLines : List String) : SyncState :=
  read_fileAux st fileLines [] "init" 1

/-- `Sync.run_init`: run the first registered thread (the init column) to
completion synchronously, then unregister it. -/
def run_init (pick : Pick) (fuel : Nat) (st : SyncState) :
    Except Err SyncState :=
  match st.threads with
  | [] => .error .indexError
  | tid :: _ =>
    match threadRun pick fuel st.sim tid with
    | .error e => .error e
    | .ok sim' => .ok { st with sim := sim', threads := st.threads.erase tid }

/-- A `Sync` with no script loaded yet (`Sync.__init__` state before
`setup`). -/
def empty (options : Options) : SyncState :=
  ⟨options, ⟨[], [], [], [], [], []⟩, [], false⟩

/-- `Sync.__init__`: read the script and run the init column. -/
def init (pick : Pick) (fuel : Nat) (options : Options)
    (fileLines : List String) : Except Err SyncState :=
  run_init pick fuel (read_file (empty options) fileLines)

end Sync

/-- `trim_block`: removes a comment from the beginning and empty lines from
the end of a block.  Note that it pops at most ONE leading comment line,
and that neither `read_file` nor `create_threads` ever invokes it. -/
def trim_block (block : List String) : List String :=
  let block :=
    if block.head?.elim false (fun l => pyStartsWith l "#") then block.tail
    else block
  (block.reverse.dropWhile (fun l => pyStrip l = "")).reverse

/-! ## Semaphore operation sequences (for the counter/queue invariant) -/

/-- One primitive operation on a semaphore: a `wait()` performed by thread
`tid`, or a `signal(k)`. -/
inductive SemOp where
  | wait (tid : Nat)
  | signal (k : Int)
  deriving Repr, DecidableEq

def applySemOp (pick : Pick) (r : Nat) (sim : Sim) : SemOp → Sim
  | .wait tid => semWait sim r tid
  | .signal k => semSignal pick sim r k

def applySemOps (pick : Pick) (r : Nat) : Sim → List SemOp → Sim
  | sim, [] => sim
  | sim, op :: ops => applySemOps pick r (applySemOp pick r sim op) ops

/-- Number of `wait()` calls in a sequence. -/
def waitCount : List SemOp → Nat
  | [] => 0
  | .wait _ :: ops => waitCount ops + 1
  | .signal _ :: ops => waitCount ops

/-- Total signalled amount of a sequence (the sum of the `k`s). -/
def signalTotal : List SemOp → Int
  | [] => 0
  | .wait _ :: ops => signalTotal ops
  | .signal k :: ops => k + signalTotal ops

/-- Every `signal` in the sequence carries a non-negative amount. -/
def nonnegSignals : List SemOp → Bool
  | [] => true
  | .wait _ :: ops => nonnegSignals ops
  | .signal k :: ops => decide (0 ≤ k) && nonnegSignals ops

/-! ## Positional characterization of `skip_body` -/

def findOutdentAux (instrs : List String) (head_indent : Nat) :
    Nat → Nat → Nat
  | 0, _ => instrs.length
  | fuel + 1, j =>
    if j < instrs.length then
      let src := instrs.getD j ""
      if src ≠ "" ∧ count_spaces src ≤ head_indent then j
      else findOutdentAux instrs head_indent fuel (j + 1)
    else instrs.length

/-- The first row at or after `j` that is non-blank and indented at most
`head_indent` — the row "just past the body" of a header at indentation
`head_indent`, where the spec says a skipped body ends; `instrs.length`
when no such row exists. -/
def findOutdent (instrs : List String) (head_indent : Nat) (j : Nat) : Nat :=
  findOutdentAux instrs head_indent (instrs.length - j) j

/-! ## Raw blocks of a script

Per the spec's description of the loader, but with NO trimming: the blocks
as `read_file` accumulates them (lines right-stripped), each replicated
when the marker carries a `* COUNT`.  Comparing against this exhibits that
the loader hands every block to its threads verbatim. -/

def blockCopies (block : List String) (cnt : Nat) : List (List String) :=
  if 1 < cnt then List.replicate cnt block else [block]

def specRawBlocks : List String → List String → Nat → List (List String)
  | [], block, cnt => blockCopies block cnt
  | l :: ls, block, cnt =>
    let l := pyRStrip l
    match Sync.matchStartNewLine l with
    | some (_, cnt') => blockCopies block cnt ++ specRawBlocks ls [] cnt'
    | none => specRawBlocks ls (block ++ [l]) cnt

/-! ## Concrete configurations used in the claim-level evaluations -/

/-- Round-robin options, no loop mode, deadlocks fatal. -/
def rrOptions : Options := ⟨none, true, false, false, true⟩

/-- Options with the silent deadlock policy. -/
def silentOptions : Options := ⟨none, false, false, false, false⟩

/-- A semaphore created with initial value −1 (queue length can then never
equal `max 0 (−n)` again). -/
def negSim : Sim :=
  ⟨[], [⟨-1, []⟩], [], [⟨"W", ["s.wait()"], false, [], [], 0, false⟩], [], []⟩

/-- A semaphore created with initial value 1, shared by two threads; used
to exercise the invariant on a wait/wait/signal sequence. -/
def invSim : Sim :=
  ⟨[], [⟨1, []⟩], [],
   [⟨"P", ["s.wait()"], false, [], [], 0, false⟩,
    ⟨"Q", ["s.wait()"], false, [], [], 0, false⟩], [], []⟩

def invOps : List SemOp := [.wait 0, .wait 1, .signal 2]

/-- Three threads; thread 0 has an empty column and so finishes (and is
unregistered) on its first step of a tick. -/
def skipSt : SyncState :=
  ⟨rrOptions,
   ⟨[], [], [],
    [⟨"A", [], false, [], [], 0, false⟩,
     ⟨"B", ["x = 0"], false, [], [], 0, false⟩,
     ⟨"C", ["y = 0"], false, [], [], 0, false⟩], [], []⟩,
   [0, 1, 2], false⟩

/-- A single two-line thread: a tick steps it once and it stays registered. -/
def oneSt : SyncState :=
  ⟨rrOptions,
   ⟨[], [], [],
    [⟨"W", ["x = 0", "noop()"], false, [], [], 0, false⟩], [], []⟩,
   [0], false⟩

/-- The state `oneSt` reaches after one round-robin tick: the thread has
executed `x = 0` and advanced to row 1. -/
def oneStAfter : SyncState :=
  ⟨rrOptions,
   ⟨[("x", .int 0)], [], [],
    [⟨"W", ["x = 0", "noop()"], false, [], [], 1, false⟩], [], []⟩,
   [0], false⟩

/-- `Barrier(3)` shared as `b` by three threads whose whole column is the
single line `b.wait()`. -/
def barrierSt : SyncState :=
  ⟨rrOptions,
   ⟨[("b", .barrierRef 0)], [⟨1, []⟩, ⟨0, []⟩, ⟨0, []⟩], [⟨3, 0, 0, 1, 2⟩],
    [⟨"A", ["b.wait()"], false, [], [], 0, false⟩,
     ⟨"B", ["b.wait()"], false, [], [], 0, false⟩,
     ⟨"C", ["b.wait()"], false, [], [], 0, false⟩], [], []⟩,
   [0, 1, 2], false⟩

/-- The script of the shared-counter example: init `x = 0`, thread A a
`while` loop whose body is the last line of its column, thread B empty. -/
def whileLines : List String :=
  ["x = 0", "## thread A", "while x < 3:", "    x = x + 1", "## thread B"]

/-- A thread whose current line is a true conditional immediately followed
by a line at the same indentation. -/
def trueCondSim : Sim :=
  ⟨[], [], [], [⟨"T", ["if 1 < 2:", "x = 5"], false, [], [], 0, false⟩], [], []⟩

/-- A thread whose current line is a false conditional immediately followed
by a line at the same indentation. -/
def falseCondSim : Sim :=
  ⟨[], [], [], [⟨"T", ["if 2 < 1:", "x = 5"], false, [], [], 0, false⟩], [], []⟩

/-- The world after the thread of `falseCondSim` evaluated its false
condition: the flag is stored, the pointer still on the header. -/
def falseCondSimAfter : Sim :=
  ⟨[], [], [],
   [⟨"T", ["if 2 < 1:", "x = 5"], false, [(0, false)], [], 0, false⟩], [], []⟩

/-- A thread stopped on a `def` header with a two-statement body containing
an interior blank line, followed by a line back at column 0. -/
def defSim : Sim :=
  ⟨[], [], [],
   [⟨"T", ["def f():", "    x = 0", "", "    y = 1", "z = 2"],
     false, [], [], 0, false⟩], [], []⟩

/-- The thread of `defSim` as `skip_body` leaves it: pointer on row 4,
just past the body. -/
def defSimSkipped : Thread :=
  ⟨"T", ["def f():", "    x = 0", "", "    y = 1", "z = 2"],
   false, [], [], 4, false⟩

/-- A thread about to block on `s.wait()` with `s = Semaphore(0)`. -/
def blockSim : Sim :=
  ⟨[("s", .semRef 0)], [⟨0, []⟩], [],
   [⟨"T", ["s.wait()", "x = 1"], false, [], [], 0, false⟩], [], []⟩

/-- The world right after the thread of `blockSim` executed `s.wait()`:
the counter went negative, the thread is in the queue and marked queued,
still on row 0. -/
def blockSimAfter : Sim :=
  ⟨[("s", .semRef 0)], [⟨-1, [0]⟩], [],
   [⟨"T", ["s.wait()", "x = 1"], false, [], [], 0, true⟩], [], []⟩

/-- A deadlocked scheduler state: the only registered thread is queued. -/
def deadSt : SyncState :=
  ⟨rrOptions,
   ⟨[("s", .semRef 0)], [⟨-1, [0]⟩], [],
    [⟨"T", ["s.wait()", "x = 1"], false, [], [], 0, true⟩], [], []⟩,
   [0], false⟩

/-- The same deadlocked state under the silent deadlock policy. -/
def deadSilentSt : SyncState := { deadSt with options := silentOptions }

/-- A script whose init block starts with a comment line and ends with a
blank line. -/
def commentLines : List String :=
  ["# leading comment", "x = 0", "", "## thread A", "pass"]

/-- A thread used to exercise `balk`: mid-column, inside a loop frame and
with a stored flag. -/
def balkThread : Thread :=
  ⟨"T", ["while 1 < 2:", "    balk()"], false, [(4, true)], [(0, 0)], 1, false⟩

/-! ## Helper lemmas -/

theorem getD_set_self {α : Type} (l : List α) (i : Nat) (x d : α) :
    (l.set i x).getD i d = if i < l.length then x else l.getD i d := by
  induction l generalizing i with
  | nil => simp
  | cons a l ih =>
    cases i with
    | zero => simp
    | succ n => simpa using ih n

theorem thread_setThread (sim : Sim) (tid : Nat) (t : Thread) :
    (sim.setThread tid t).thread tid =
      if tid < sim.store.length then t else sim.thread tid := by
  simp only [Sim.setThread, Sim.thread]
  exact getD_set_self sim.store tid t default

theorem sem_setSem (sim : Sim) (r : Nat) (s : Semaphore) :
    (sim.setSem r s).sem r = if r < sim.sems.length then s else sim.sem r := by
  simp only [Sim.setSem, Sim.sem]
  exact getD_set_self sim.sems r s ⟨0, []⟩

theorem pyGetStr_nonneg (l : List String) (i : Int) (hi : 0 ≤ i) :
    pyGetStr l i = l.getD i.toNat "" := by
  simp [pyGetStr]
  omega

theorem check_end_while_nil (t : Thread) (h : t.while_stack = []) :
    t.check_end_while = t := by
  unfold Thread.check_end_while
  rw [h]

theorem next_row_queued (t : Thread) (h : t.queued = true) :
    t.next_row = t := by
  simp [Thread.next_row, h]

theorem next_row_not_queued (t : Thread) (h : t.queued = false) :
    t.next_row = { t with iptr := t.iptr + 1 } := by
  simp [Thread.next_row, h]

theorem finished_iff (t : Thread) :
    t.finished = true ↔ (t.instructions.length : Int) ≤ t.iptr := by
  simp [Thread.finished]

theorem findOutdent_eq (instrs : List String) (h j : Nat) :
    findOutdent instrs h j =
      if j < instrs.length then
        (if instrs.getD j "" ≠ "" ∧ count_spaces (instrs.getD j "") ≤ h then j
         else findOutdent instrs h (j + 1))
      else instrs.length := by
  unfold findOutdent
  by_cases hj : j < instrs.length
  · have hfuel : instrs.length - j = (instrs.length - (j + 1)) + 1 := by omega
    rw [hfuel]
    simp [findOutdentAux, hj]
  · have hfuel : instrs.length - j = 0 := by omega
    rw [hfuel]
    simp [findOutdentAux, hj]

theorem setThread_sems (sim : Sim) (tid : Nat) (t : Thread) :
    (sim.setThread tid t).sems = sim.sems := rfl

theorem setSem_store (sim : Sim) (r : Nat) (s : Semaphore) :
    (sim.setSem r s).store = sim.store := rfl

theorem sem_setThread (sim : Sim) (tid : Nat) (t : Thread) (r : Nat) :
    (sim.setThread tid t).sem r = sim.sem r := rfl

theorem thread_setSem (sim : Sim) (r : Nat) (s : Semaphore) (tid : Nat) :
    (sim.setSem r s).thread tid = sim.thread tid := rfl

theorem setSem_sems_length (sim : Sim) (r : Nat) (s : Semaphore) :
    (sim.setSem r s).sems.length = sim.sems.length := by
  simp [Sim.setSem]

theorem setThread_store_length (sim : Sim) (tid : Nat) (t : Thread) :
    (sim.setThread tid t).store.length = sim.store.length := by
  simp [Sim.setThread]

/-! ## C1: the semaphore invariant, positive part

Internally the queue-length identity is kept in the `omega`-friendly form
`queue.length = (−n).toNat`, which over the integers is exactly
`max 0 (−n)`. -/

theorem semWait_spec (sim : Sim) (r tid : Nat) (hr : r < sim.sems.length)
    (hinv : (sim.sem r).queue.length = (-(sim.sem r).n).toNat) :
    (semWait sim r tid).sems.length = sim.sems.length ∧
    ((semWait sim r tid).sem r).n = (sim.sem r).n - 1 ∧
    ((semWait sim r tid).sem r).queue.length =
      (-((semWait sim r tid).sem r).n).toNat := by
  unfold semWait
  by_cases hn : (sim.sem r).n - 1 < 0
  · rw [if_pos hn]
    refine ⟨?_, ?_, ?_⟩
    · rw [setThread_sems, setSem_sems_length]
    · rw [sem_setThread, sem_setSem, if_pos hr]
    · rw [sem_setThread, sem_setSem, if_pos hr]
      simp only [List.length_append, List.length_cons, List.length_nil]
      omega
  · rw [if_neg hn]
    refine ⟨?_, ?_, ?_⟩
    · rw [setSem_sems_length]
    · rw [sem_setSem, if_pos hr]
    · rw [sem_setSem, if_pos hr]
      simp only []
      omega

theorem semUnblock_spec (pick : Pick) (sim : Sim) (r : Nat)
    (hr : r < sim.sems.length) (hq : (sim.sem r).queue ≠ []) :
    (semUnblock pick sim r).sems.length = sim.sems.length ∧
    ((semUnblock pick sim r).sem r).n = (sim.sem r).n ∧
    ((semUnblock pick sim r).sem r).queue.length =
      (sim.sem r).queue.length - 1 := by
  have hlen : 0 < (sim.sem r).queue.length := List.length_pos.2 hq
  have hidx : pick (sim.sem r).queue % (sim.sem r).queue.length <
      (sim.sem r).queue.length := Nat.mod_lt _ hlen
  have hmem : (sim.sem r).queue.getD
      (pick (sim.sem r).queue % (sim.sem r).queue.length) 0 ∈
      (sim.sem r).queue := by
    rw [List.getD_eq_getElem _ _ hidx]
    exact List.getElem_mem hidx
  unfold semUnblock
  refine ⟨?_, ?_, ?_⟩
  · rw [setThread_sems, setSem_sems_length]
  · rw [sem_setThread, sem_setSem, if_pos hr]
  · rw [sem_setThread, sem_setSem, if_pos hr]
    exact List.length_erase_of_mem hmem

theorem semSignalLoop_spec (pick : Pick) (r : Nat) : ∀ (k : Nat) (sim : Sim),
    r < sim.sems.length →
    (sim.sem r).queue.length = (-(sim.sem r).n).toNat →
    (semSignalLoop pick r k sim).sems.length = sim.sems.length ∧
    ((semSignalLoop pick r k sim).sem r).n = (sim.sem r).n + k ∧
    ((semSignalLoop pick r k sim).sem r).queue.length =
      (-((semSignalLoop pick r k sim).sem r).n).toNat := by
  intro k
  induction k with
  | zero =>
    intro sim hr hinv
    exact ⟨rfl, by simp [semSignalLoop], hinv⟩
  | succ k ih =>
    intro sim hr hinv
    have h1 : ((sim.setSem r ⟨(sim.sem r).n + 1, (sim.sem r).queue⟩).sem r) =
        ⟨(sim.sem r).n + 1, (sim.sem r).queue⟩ := by
      rw [sem_setSem, if_pos hr]
    have hr1 : r <
        (sim.setSem r ⟨(sim.sem r).n + 1, (sim.sem r).queue⟩).sems.length := by
      rw [setSem_sems_length]; exact hr
    unfold semSignalLoop
    dsimp only []
    by_cases hq :
        ((sim.setSem r ⟨(sim.sem r).n + 1, (sim.sem r).queue⟩).sem r).queue ≠ []
    · rw [if_pos hq]
      obtain ⟨hu1, hu2, hu3⟩ := semUnblock_spec pick _ r hr1 hq
      have hqpos : 0 < (sim.sem r).queue.length := by
        rw [h1] at hq
        simpa using List.length_pos.2 hq
      have hrU : r < (semUnblock pick
          (sim.setSem r ⟨(sim.sem r).n + 1, (sim.sem r).queue⟩) r).sems.length := by
        rw [hu1]; exact hr1
      have hinvU : ((semUnblock pick
          (sim.setSem r ⟨(sim.sem r).n + 1, (sim.sem r).queue⟩) r).sem
            r).queue.length =
          (-((semUnblock pick
            (sim.setSem r ⟨(sim.sem r).n + 1, (sim.sem r).queue⟩) r).sem
              r).n).toNat := by
        rw [hu2, hu3, h1]
        dsimp only []
        omega
      obtain ⟨hl1, hl2, hl3⟩ := ih _ hrU hinvU
      refine ⟨?_, ?_, hl3⟩
      · rw [hl1, hu1, setSem_sems_length]
      · rw [hl2, hu2, h1]
        dsimp only []
        push_cast
        ring
    · rw [if_neg hq]
      have hinv1 : ((sim.setSem r
          ⟨(sim.sem r).n + 1, (sim.sem r).queue⟩).sem r).queue.length =
          (-((sim.setSem r
            ⟨(sim.sem r).n + 1, (sim.sem r).queue⟩).sem r).n).toNat := by
        rw [h1]
        rw [not_not] at hq
        rw [h1] at hq
        dsimp only [] at hq
        have hzero : (sim.sem r).queue.length = 0 := by rw [hq]; rfl
        dsimp only []
        omega
      obtain ⟨hl1, hl2, hl3⟩ := ih _ hr1 hinv1
      refine ⟨?_, ?_, hl3⟩
      · rw [hl1, setSem_sems_length]
      · rw [hl2, h1]
        dsimp only []
        push_cast
        ring

theorem applySemOps_spec (pick : Pick) (r : Nat) :
    ∀ (ops : List SemOp) (sim : Sim),
    r < sim.sems.length →
    (sim.sem r).queue.length = (-(sim.sem r).n).toNat →
    nonnegSignals ops = true →
    r < (applySemOps pick r sim ops).sems.length ∧
    ((applySemOps pick r sim ops).sem r).n =
      (sim.sem r).n + signalTotal ops - (waitCount ops : Int) ∧
    ((applySemOps pick r sim ops).sem r).queue.length =
      (-((applySemOps pick r sim ops).sem r).n).toNat := by
  intro ops
  induction ops with
  | nil =>
    intro sim hr hinv _
    refine ⟨hr, ?_, hinv⟩
    simp [applySemOps, signalTotal, waitCount]
  | cons op ops ih =>
    intro sim hr hinv hk
    cases op with
    | wait tid =>
      obtain ⟨hw1, hw2, hw3⟩ := semWait_spec sim r tid hr hinv
      have hr' : r < (semWait sim r tid).sems.length := by rw [hw1]; exact hr
      obtain ⟨hl1, hl2, hl3⟩ := ih (semWait sim r tid) hr' hw3 hk
      simp only [applySemOps, applySemOp]
      refine ⟨hl1, ?_, hl3⟩
      rw [hl2, hw2]
      simp only [signalTotal, waitCount]
      push_cast
      ring
    | signal k =>
      have hk0 : 0 ≤ k ∧ nonnegSignals ops = true := by
        have := hk
        simp only [nonnegSignals, Bool.and_eq_true, decide_eq_true_eq] at this
        exact this
      have hsig := semSignalLoop_spec pick r k.toNat sim hr hinv
      obtain ⟨hs1, hs2, hs3⟩ := hsig
      have hr' : r < (semSignalLoop pick r k.toNat sim).sems.length := by
        rw [hs1]; exact hr
      obtain ⟨hl1, hl2, hl3⟩ := ih (semSignalLoop pick r k.toNat sim) hr' hs3 hk0.2
      simp only [applySemOps, applySemOp, semSignal]
      refine ⟨hl1, ?_, hl3⟩
      rw [hl2, hs2]
      simp only [signalTotal, waitCount]
      rw [Int.toNat_of_nonneg hk0.1]
      ring

/-- C1 amended: for every semaphore created with a NON-NEGATIVE initial
value `n₀` and every sequence of `wait()`/`signal(k)` operations (each `k`
non-negative), at every observable point
`n = n₀ + total_signals − total_waits` and the wait-queue length equals
`max 0 (−n)`.  (The unamended claim fails for a negative initial value:
see the counterexample.) -/
theorem semaphore_invariant (pick : Pick) (sim : Sim) (r : Nat) (n₀ : Int)
    (ops : List SemOp) (hr : r < sim.sems.length)
    (hsem : sim.sem r = ⟨n₀, []⟩) (h0 : 0 ≤ n₀)
    (hk : nonnegSignals ops = true) :
    ((applySemOps pick r sim ops).sem r).n =
      n₀ + signalTotal ops - (waitCount ops : Int) ∧
    (((applySemOps pick r sim ops).sem r).queue.length : Int) =
      max 0 (-((applySemOps pick r sim ops).sem r).n) := by
  have hinv : (sim.sem r).queue.length = (-(sim.sem r).n).toNat := by
    rw [hsem]
    simp only [List.length_nil]
    omega
  obtain ⟨h1, h2, h3⟩ := applySemOps_spec pick r ops sim hr hinv hk
  refine ⟨by rw [h2, hsem], ?_⟩
  rw [h3, Int.toNat_eq_max]
  exact max_comm _ _

theorem semaphore_invariant_witness :
    ((applySemOps pick0 0 invSim invOps).sem 0).n =
      1 + signalTotal invOps - (waitCount invOps : Int) ∧
    (((applySemOps pick0 0 invSim invOps).sem 0).queue.length : Int) =
      max 0 (-((applySemOps pick0 0 invSim invOps).sem 0).n) :=
  semaphore_invariant pick0 invSim 0 1 invOps (by decide) (by decide)
    (by decide) (by decide)

/-! ## C6: balk -/

/-- C6: `balk()` sets the instruction pointer to the sentinel −1, leaves
`while_stack`, `flag_map` (and everything else but the pointer) completely
unchanged — no frame popped, no flag cleared — and for a non-queued thread
the next forced advance (`next_row`) lands exactly on row 0. -/
theorem balk_resets_pointer_only (t : Thread) (h : t.queued = false) :
    t.balk.iptr = -1 ∧
    t.balk.while_stack = t.while_stack ∧
    t.balk.flag_map = t.flag_map ∧
    t.balk.queued = t.queued ∧
    t.balk.instructions = t.instructions ∧
    t.balk.next_row.iptr = 0 := by
  refine ⟨rfl, rfl, rfl, rfl, rfl, ?_⟩
  rw [next_row_not_queued t.balk h]
  simp [Thread.balk]

theorem balk_resets_pointer_only_witness :
    balkThread.balk.iptr = -1 ∧
    balkThread.balk.while_stack = balkThread.while_stack ∧
    balkThread.balk.flag_map = balkThread.flag_map ∧
    balkThread.balk.queued = balkThread.queued ∧
    balkThread.balk.instructions = balkThread.instructions ∧
    balkThread.balk.next_row.iptr = 0 :=
  balk_resets_pointer_only balkThread (by decide)

/-! ## C7: deadlock policy of random mode -/

/-- C7: in random mode, when threads remain registered but every one of
them is queued, the scheduler fails with the deadlock assertion under the
default (`no_deadlocks`) policy, and under the silent policy returns the
state entirely unchanged without advancing any thread. -/
theorem random_step_deadlock_policy (pick : Pick)
    (stepper : SyncState → Nat → Except Err SyncState) (st : SyncState)
    (_hne : st.threads ≠ [])
    (hq : ∀ tid ∈ st.threads, (st.sim.thread tid).queued = true) :
    (st.options.no_deadlocks = true →
      Sync.random_step pick stepper st =
        .error (.assertFailed "Threads are deadlocked - failing")) ∧
    (st.options.no_deadlocks = false →
      Sync.random_step pick stepper st = .ok st) := by
  have hfil : st.threads.filter (fun tid => !(st.sim.thread tid).queued) = [] := by
    rw [List.filter_eq_nil_iff]
    intro a ha
    simp [hq a ha]
  constructor <;> intro hopt <;> simp [Sync.random_step, hfil, hopt]

theorem random_step_deadlock_policy_witness :
    (Sync.random_step pick0 (Sync.step_thread pick0) deadSt =
        .error (.assertFailed "Threads are deadlocked - failing")) ∧
    (Sync.random_step pick0 (Sync.step_thread pick0) deadSilentSt =
        .ok deadSilentSt) :=
  ⟨(random_step_deadlock_policy pick0 (Sync.step_thread pick0) deadSt
      (by decide) (by decide)).1 (by decide),
   (random_step_deadlock_policy pick0 (Sync.step_thread pick0) deadSilentSt
      (by decide) (by decide)).2 (by decide)⟩

/-! ## C1: the semaphore invariant

The counter identity holds for every operation sequence, but the
queue-length identity can fail when the semaphore is created with a
negative initial value: `Semaphore(-1)` starts with an empty queue although
`max 0 (−n) = 1`, and a single `wait()` leaves one queued thread although
`max 0 (−n) = 2`. -/

/-- C1, counterexample: for the semaphore created with initial value −1,
after one `wait()` the queue length is 1 while `max 0 (−n) = 2`. -/
theorem semaphore_invariant_fails_neg_init :
    ¬ ((((applySemOps pick0 0 negSim [.wait 0]).sem 0).queue.length : Int) =
        max 0 (-((applySemOps pick0 0 negSim [.wait 0]).sem 0).n)) := by
  decide

/-! ## C2: the round-robin tick

`Sync.step` iterates `for thread in self.threads` while `step_thread`
mutates that very list when a thread finishes: Python's index-based
iterator then skips the element that slid into the removed thread's
position. -/

/-- C2, counterexample: in `skipSt`, thread 1 is registered, not queued and
not finished, yet the round-robin tick's visit order is `[0, 2]` — thread 1
is never stepped during the tick (its pointer stays 0) because thread 0
finished and was unregistered while the tick was iterating. -/
theorem step_roundrobin_skips_after_unregister :
    (1 ∈ skipSt.threads ∧ (skipSt.sim.thread 1).queued = false ∧
      (skipSt.sim.thread 1).finished = false) ∧
    (Sync.step (Sync.step_thread pick0) skipSt).map
        (fun p => (p.2, (p.1.sim.thread 1).iptr)) = .ok ([0, 2], 0) := by
  decide

theorem step_thread_threads (pick : Pick) (st st₂ : SyncState) (tid : Nat)
    (h : Sync.step_thread pick st tid = .ok st₂) :
    st₂.threads = st.threads ∨ st₂.threads = st.threads.erase tid := by
  unfold Sync.step_thread at h
  cases hs : stepSim pick st.sim tid with
  | error e => rw [hs] at h; exact absurd h (by simp)
  | ok sim' =>
    rw [hs] at h
    dsimp only [] at h
    by_cases hf : (sim'.thread tid).finished = true
    · rw [if_pos hf] at h
      right
      have h' := h
      injection h' with h''
      rw [← h'']
    · rw [if_neg hf] at h
      left
      have h' := h
      injection h' with h''
      rw [← h'']

theorem stepAux_spec (pick : Pick) : ∀ (fuel i : Nat) (st : SyncState)
    (acc : List Nat) (st' : SyncState) (acc' : List Nat),
    Sync.stepAux (Sync.step_thread pick) fuel i st acc = .ok (st', acc') →
    st'.threads.length ≤ st.threads.length ∧
    (st'.threads.length = st.threads.length →
      st'.threads = st.threads ∧ acc' = acc ++ st.threads.drop i) := by
  intro fuel
  induction fuel with
  | zero =>
    intro i st acc st' acc' h
    exact absurd h (by simp [Sync.stepAux])
  | succ fuel ih =>
    intro i st acc st' acc' h
    unfold Sync.stepAux at h
    by_cases hi : i < st.threads.length
    · rw [dif_pos hi] at h
      dsimp only [] at h
      cases hstep : Sync.step_thread pick st (st.threads.get ⟨i, hi⟩) with
      | error e => rw [hstep] at h; exact absurd h (by simp)
      | ok st₂ =>
        rw [hstep] at h
        obtain ⟨hm, hcond⟩ := ih (i + 1) st₂
          (acc ++ [st.threads.get ⟨i, hi⟩]) st' acc' h
        rcases step_thread_threads pick st st₂ _ hstep with heq | her
        · refine ⟨by rw [heq] at hm; exact hm, ?_⟩
          intro hlen
          obtain ⟨h1, h2⟩ := hcond (by rw [heq]; exact hlen)
          refine ⟨by rw [h1, heq], ?_⟩
          rw [h2, heq, List.append_assoc]
          congr 1
          simp only [List.singleton_append, List.get_eq_getElem]
          exact (List.drop_eq_getElem_cons hi).symm
        · have hmem : st.threads.get ⟨i, hi⟩ ∈ st.threads := List.get_mem _ _ _
          have hlt : st₂.threads.length < st.threads.length := by
            rw [her, List.length_erase_of_mem hmem]
            omega
          exact ⟨by omega, fun hlen => absurd hlen (by omega)⟩
    · rw [dif_neg hi] at h
      have hpair : st = st' ∧ acc = acc' := by simpa using h
      obtain ⟨hst, hacc⟩ := hpair
      refine ⟨by rw [← hst], fun _ => ⟨by rw [← hst], ?_⟩⟩
      rw [← hacc, List.drop_eq_nil_of_le (Nat.le_of_not_lt hi)]
      simp

/-- C2 amended: every round-robin tick during which no thread completes
advances every registered thread exactly once, in registration order: the
tick's visit trace is exactly the registration list.  When a thread does
complete and is unregistered mid-tick, the `for` loop's index-based
iteration over the mutated list skips the thread that slid into the
removed position, so that thread is not advanced that tick (see the
counterexample). -/
theorem step_roundrobin_visits_all (pick : Pick) (st st' : SyncState)
    (visits : List Nat)
    (hok : Sync.step (Sync.step_thread pick) st = .ok (st', visits))
    (hsame : st'.threads = st.threads) :
    visits = st.threads := by
  obtain ⟨hm, hcond⟩ :=
    stepAux_spec pick (st.threads.length + 1) 0 st [] st' visits hok
  obtain ⟨h1, h2⟩ := hcond (by rw [hsame])
  rw [h2]
  simp

theorem step_roundrobin_visits_all_witness : [0] = oneSt.threads :=
  step_roundrobin_visits_all pick0 oneSt oneStAfter [0] (by decide) (by decide)

/-! ## C3: the barrier

Inside the simulator a `Semaphore.wait` that drives the counter negative
marks the calling thread queued but does NOT suspend the Python call in
progress, so one `b.wait()` line executes phase1 AND phase2 to completion
in a single atomic step.  The first thread to run therefore completes the
phase2 code before the other two have executed any of phase1, and all
three threads end permanently queued on the first turnstile. -/

/-- C3: stepping the three `b.wait()` threads once each (round-robin tick,
the schedule that steps thread 0 first) produces the event trace
`0:phase1, 0:phase2, 1:phase1, 1:phase2, 2:phase1, 2:phase2` — thread 0
completes phase2 before threads 1 and 2 complete (or even start) phase1 —
and leaves every thread queued at its `b.wait()` row with the turnstile at
`n = −3` and all three threads in its queue, never to be signalled. -/
theorem barrier_phase2_before_phase1 :
    (Sync.step (Sync.step_thread pick0) barrierSt).map
        (fun p => (p.1.sim.events, p.1.sim.sem 1,
          p.1.sim.store.map (fun t => (t.iptr, t.queued)))) =
      .ok ([(0, "phase1"), (0, "phase2"), (1, "phase1"), (1, "phase2"),
            (2, "phase1"), (2, "phase2")],
        ⟨-3, [0, 1, 2]⟩, [(0, true), (0, true), (0, true)]) := by
  decide

/-! ## C4: the while-loop example

`check_end_while` fires only at the start of the NEXT step of the thread,
but when the loop body is the last line of the column, `next_row` pushes
the pointer to `len`, `finished` becomes true and the scheduler
unregisters the thread before any further step: the loop body runs exactly
once, leaving `x = 1` rather than 3. -/

/-- C4: loading the script (init `x = 0`; thread A `while x < 3:` /
`    x = x + 1`; thread B empty) and running it to completion in
round-robin mode terminates with `x = 1` — not 3 — and with thread A (and
every other thread) unregistered. -/
theorem while_loop_at_column_end_runs_once :
    ((Sync.init pick0 10 rrOptions whileLines).bind (Sync.run pick0 20)).map
        (fun st => (lookupVar st.sim.locals "x", st.threads)) =
      .ok (some (.int 1), []) := by
  decide

/-! ## C8: the body-indentation error

`skip_body` — and with it the "body must be indented" check — runs only
when the engine has to SKIP the body: a conditional header that resolved
false, or a `def`/`class` header.  A header whose condition evaluates true
advances into the following line without ever checking its indentation. -/

/-- C8, counterexample: the thread of `trueCondSim` is stopped on the
header `if 1 < 2:` whose immediate successor `x = 5` is non-blank at the
same indentation, yet `step` raises no error at all: the condition is
true, so the engine records the flag and simply advances to row 1. -/
theorem true_header_unindented_body_no_error :
    (stepSim pick0 trueCondSim 0).map
        (fun s => ((s.thread 0).iptr, (s.thread 0).flag_map)) =
      .ok (1, [(0, true)]) := by
  decide

/-! ## C10: a blocked thread stays on the blocking row -/

theorem semUnblock_thread (pick : Pick) (sim : Sim) (r ch : Nat)
    (hch : ch = (sim.sem r).queue.getD
      (pick (sim.sem r).queue % (sim.sem r).queue.length) 0)
    (hvalid : ch < sim.store.length) :
    (semUnblock pick sim r).thread ch = (sim.thread ch).dequeue.next_loop := by
  unfold semUnblock
  dsimp only []
  rw [← hch]
  rw [thread_setThread]
  have hv : ch < (sim.setSem r
      ⟨(sim.sem r).n, (sim.sem r).queue.erase ch⟩).store.length := by
    rw [setSem_store]; exact hvalid
  rw [if_pos hv]
  rw [thread_setSem]

/-- C10: if executing the current line leaves the thread queued (a
`Semaphore.wait` that drove the counter negative), `step()` performs no
pointer motion beyond the line's own effects — the step's result is
exactly the post-execution world, with the thread still on the row that
blocked; `next_row` is a no-op for every queued thread, so the pointer
cannot move while queued; and a `signal`'s `unblock` is what moves it:
unblocking dequeues the chosen thread and advances its pointer past the
blocking row. -/
theorem blocked_wait_keeps_row (pick : Pick) (sim sim₁ : Sim) (tid : Nat)
    (hq : (sim.thread tid).queued = false)
    (hf : (sim.thread tid).finished = false)
    (hexec : exec_line pick
        (sim.setThread tid (sim.thread tid).check_end_while) tid
        (pyGetStr (sim.thread tid).check_end_while.instructions
          (sim.thread tid).check_end_while.iptr) = .ok (sim₁, true))
    (hq1 : (sim₁.thread tid).queued = true) :
    (stepSim pick sim tid = .ok (sim₁.setThread tid (sim₁.thread tid))) ∧
    ((sim₁.setThread tid (sim₁.thread tid)).thread tid = sim₁.thread tid) ∧
    (∀ u : Thread, u.queued = true → u.next_row = u) ∧
    (∀ (simA : Sim) (r ch : Nat),
      (simA.sem r).queue ≠ [] →
      ch = (simA.sem r).queue.getD
        (pick (simA.sem r).queue % (simA.sem r).queue.length) 0 →
      ch < simA.store.length →
      (simA.thread ch).looping = false →
      ((semSignal pick simA r 1).thread ch).queued = false ∧
      ((semSignal pick simA r 1).thread ch).iptr = (simA.thread ch).iptr + 1) := by
  refine ⟨?_, ?_, fun u hu => next_row_queued u hu, ?_⟩
  · have hq' : ¬((sim.thread tid).queued = true) := by rw [hq]; simp
    have hf' : ¬((sim.thread tid).finished = true) := by rw [hf]; simp
    unfold stepSim
    dsimp only []
    rw [if_neg hq', if_neg hf', hexec]
    dsimp only []
    rw [next_row_queued _ hq1]
    rw [if_pos rfl]
  · rw [thread_setThread]
    by_cases hv : tid < sim₁.store.length
    · rw [if_pos hv]
    · rw [if_neg hv]
  · intro simA r ch hne hch hvalid hloop
    have hr : r < simA.sems.length := by
      by_contra hge
      have hdef : simA.sem r = ⟨0, []⟩ := by
        unfold Sim.sem
        exact List.getD_eq_default _ _ (Nat.le_of_not_lt hge)
      rw [hdef] at hne
      exact hne rfl
    have h1 : ((simA.setSem r ⟨(simA.sem r).n + 1, (simA.sem r).queue⟩).sem r) =
        ⟨(simA.sem r).n + 1, (simA.sem r).queue⟩ := by
      rw [sem_setSem, if_pos hr]
    have hone : semSignal pick simA r 1 =
        if ((simA.setSem r ⟨(simA.sem r).n + 1,
              (simA.sem r).queue⟩).sem r).queue ≠ [] then
          semUnblock pick
            (simA.setSem r ⟨(simA.sem r).n + 1, (simA.sem r).queue⟩) r
        else simA.setSem r ⟨(simA.sem r).n + 1, (simA.sem r).queue⟩ := rfl
    rw [hone, h1]
    dsimp only []
    rw [if_pos hne]
    have hch' : ch = (((simA.setSem r
        ⟨(simA.sem r).n + 1, (simA.sem r).queue⟩)).sem r).queue.getD
        (pick (((simA.setSem r
            ⟨(simA.sem r).n + 1, (simA.sem r).queue⟩)).sem r).queue %
          (((simA.setSem r
            ⟨(simA.sem r).n + 1, (simA.sem r).queue⟩)).sem r).queue.length)
        0 := by
      rw [h1]
      simpa using hch
    have hv' : ch < (simA.setSem r
        ⟨(simA.sem r).n + 1, (simA.sem r).queue⟩).store.length := by
      rw [setSem_store]; exact hvalid
    rw [semUnblock_thread pick _ r ch hch' hv']
    rw [thread_setSem]
    have hcond : ¬((((simA.thread ch).dequeue.next_row).finished = true) ∧
        (((simA.thread ch).dequeue.next_row).looping = true)) := by
      rw [next_row_not_queued _ rfl]
      intro hcontra
      have hl : (simA.thread ch).looping = true := hcontra.2
      rw [hloop] at hl
      exact Bool.false_ne_true hl
    unfold Thread.next_loop
    dsimp only []
    rw [if_neg hcond, next_row_not_queued _ rfl]
    exact ⟨rfl, rfl⟩

theorem blocked_wait_keeps_row_witness :
    (stepSim pick0 blockSim 0 =
      .ok (blockSimAfter.setThread 0 (blockSimAfter.thread 0))) ∧
    ((blockSimAfter.setThread 0 (blockSimAfter.thread 0)).thread 0 =
      blockSimAfter.thread 0) :=
  ⟨(blocked_wait_keeps_row pick0 blockSim blockSimAfter 0 (by decide)
      (by decide) (by decide) (by decide)).1,
   (blocked_wait_keeps_row pick0 blockSim blockSimAfter 0 (by decide)
      (by decide) (by decide) (by decide)).2.1⟩

/-! ## C9: block trimming

`trim_block` exists but is never invoked: `read_file` hands each
accumulated block to `create_threads` verbatim (lines right-stripped
only), so a block's leading comment lines and trailing blank lines all
survive into the created thread's instruction list. -/

theorem register_store (st : SyncState) (t : Thread) :
    (Sync.register st t).sim.store = st.sim.store ++ [t] := rfl

theorem create_threads_store (st : SyncState) (block : List String)
    (name : String) (cnt : Nat) :
    ((Sync.create_threads st block name cnt).sim.store).map
        (fun t => t.instructions) =
      (st.sim.store).map (fun t => t.instructions) ++ blockCopies block cnt := by
  unfold Sync.create_threads blockCopies
  by_cases hc : 1 < cnt
  · rw [if_pos hc, if_pos hc]
    have hfold : ∀ (l : List Nat) (s : SyncState),
        (((l.foldl (fun s i => Sync.register s
            (Sync.mkThread block (name ++ "-" ++ toString i)
              s.options.loop)) s)).sim.store).map (fun t => t.instructions) =
          (s.sim.store).map (fun t => t.instructions) ++
            List.replicate l.length block := by
      intro l
      induction l with
      | nil => intro s; simp
      | cons a l ih =>
        intro s
        rw [List.foldl_cons, ih]
        rw [register_store]
        simp [Sync.mkThread, List.replicate_succ]
    rw [hfold]
    simp
  · rw [if_neg hc, if_neg hc]
    rw [register_store]
    simp [Sync.mkThread]

theorem read_fileAux_store :
    ∀ (ls : List String) (st : SyncState) (block : List String)
      (name : String) (cnt : Nat),
    ((Sync.read_fileAux st ls block name cnt).sim.store).map
        (fun t => t.instructions) =
      (st.sim.store).map (fun t => t.instructions) ++
        specRawBlocks ls block cnt := by
  intro ls
  induction ls with
  | nil =>
    intro st block name cnt
    exact create_threads_store st block name cnt
  | cons l ls ih =>
    intro st block name cnt
    unfold Sync.read_fileAux specRawBlocks
    dsimp only []
    cases hm : Sync.matchStartNewLine (pyRStrip l) with
    | some p =>
      obtain ⟨nm, cnt'⟩ := p
      dsimp only []
      rw [ih, create_threads_store, List.append_assoc]
    | none =>
      dsimp only []
      exact ih st (block ++ [pyRStrip l]) name cnt

/-- C9 amended: the loader performs NO trimming: every created thread's
instruction list is exactly its raw block (the accumulated lines,
right-stripped only, replicated for a `* COUNT` marker).  The `trim_block`
helper — which would anyway remove only the FIRST leading comment line —
is never invoked by `read_file`/`create_threads`, so a block's leading
comment lines and trailing blank lines survive into the thread (see the
counterexample). -/
theorem blocks_registered_verbatim (options : Options) (lines : List String) :
    ((Sync.read_file (Sync.empty options) lines).sim.store).map
        (fun t => t.instructions) = specRawBlocks lines [] 1 := by
  unfold Sync.read_file
  rw [read_fileAux_store]
  simp [Sync.empty]

/-- C9, counterexample: loading `commentLines`, the init thread's
instruction list is exactly the raw block — it begins with the comment
line and ends with a blank line. -/
theorem loaded_block_keeps_comment_and_blanks :
    ((Sync.read_file (Sync.empty rrOptions) commentLines).sim.thread 0).instructions =
      ["# leading comment", "x = 0", ""] ∧
    pyStartsWith
      (((Sync.read_file (Sync.empty rrOptions) commentLines).sim.thread
          0).instructions.getD 0 "") "#" = true ∧
    ((Sync.read_file (Sync.empty rrOptions) commentLines).sim.thread
        0).instructions.getLast? = some "" := by
  decide

/-! ## Characterization of `skip_body`: the pointer lands just past the body -/

theorem skip_body_loop2_spec (h : Nat) : ∀ (fuel : Nat) (t : Thread)
    (lines : List String) (src : String),
    t.queued = false → 0 ≤ t.iptr →
    t.iptr < (t.instructions.length : Int) →
    t.instructions.length + 1 ≤ fuel + t.iptr.toNat →
    ∃ lines', Thread.skip_body_loop2 h fuel t lines src =
      .ok (lines', { t with iptr :=
        (findOutdent t.instructions h (t.iptr.toNat + 1) : Int) }) := by
  intro fuel
  induction fuel with
  | zero =>
    intro t lines src hq hi hlt hfuel
    exfalso
    omega
  | succ fuel ih =>
    intro t lines src hq hi hlt hfuel
    unfold Thread.skip_body_loop2
    dsimp only []
    rw [next_row_not_queued t hq]
    have htoNat : (t.iptr + 1).toNat = t.iptr.toNat + 1 := by omega
    by_cases hfin : ({ t with iptr := t.iptr + 1 } : Thread).finished = true
    · rw [if_pos hfin]
      have hlen : t.iptr + 1 = (t.instructions.length : Int) := by
        have hge := (finished_iff _).1 hfin
        dsimp only [] at hge
        omega
      have hfo : findOutdent t.instructions h (t.iptr.toNat + 1) =
          t.instructions.length := by
        rw [findOutdent_eq, if_neg (by omega)]
      refine ⟨lines ++ [src], ?_⟩
      rw [hfo]
      have hcast : ((t.instructions.length : Nat) : Int) = t.iptr + 1 := by omega
      rw [hcast]
    · rw [if_neg hfin]
      have hlt1 : t.iptr + 1 < (t.instructions.length : Int) := by
        have := mt (finished_iff ({ t with iptr := t.iptr + 1 } : Thread)).2 hfin
        dsimp only [] at this
        omega
      have hsrc : pyGetStr
          ({ t with iptr := t.iptr + 1 } : Thread).instructions
          ({ t with iptr := t.iptr + 1 } : Thread).iptr =
          t.instructions.getD (t.iptr.toNat + 1) "" := by
        dsimp only []
        rw [pyGetStr_nonneg _ _ (by omega), htoNat]
      rw [hsrc]
      have hfo := findOutdent_eq t.instructions h (t.iptr.toNat + 1)
      rw [if_pos (by omega : t.iptr.toNat + 1 < t.instructions.length)] at hfo
      by_cases hblank : t.instructions.getD (t.iptr.toNat + 1) "" = ""
      · rw [if_pos hblank]
        have hstop : ¬ (t.instructions.getD (t.iptr.toNat + 1) "" ≠ "" ∧
            count_spaces (t.instructions.getD (t.iptr.toNat + 1) "") ≤ h) := by
          intro hc
          exact hc.1 hblank
        rw [if_neg hstop] at hfo
        obtain ⟨lines', hrec⟩ := ih { t with iptr := t.iptr + 1 }
          (lines ++ [src]) (t.instructions.getD (t.iptr.toNat + 1) "")
          hq (by show (0 : Int) ≤ t.iptr + 1; omega)
          (by show t.iptr + 1 < (t.instructions.length : Int); omega)
          (by show t.instructions.length + 1 ≤ fuel + (t.iptr + 1).toNat; omega)
        refine ⟨lines', ?_⟩
        rw [hrec]
        dsimp only []
        rw [htoNat, hfo]
      · rw [if_neg hblank]
        by_cases hind : count_spaces (t.instructions.getD (t.iptr.toNat + 1) "") ≤ h
        · rw [if_pos hind]
          have hstop : t.instructions.getD (t.iptr.toNat + 1) "" ≠ "" ∧
              count_spaces (t.instructions.getD (t.iptr.toNat + 1) "") ≤ h :=
            ⟨hblank, hind⟩
          rw [if_pos hstop] at hfo
          refine ⟨lines ++ [src], ?_⟩
          rw [hfo]
          have hcast : ((t.iptr.toNat + 1 : Nat) : Int) = t.iptr + 1 := by omega
          rw [hcast]
        · rw [if_neg hind]
          have hstop : ¬ (t.instructions.getD (t.iptr.toNat + 1) "" ≠ "" ∧
              count_spaces (t.instructions.getD (t.iptr.toNat + 1) "") ≤ h) := by
            intro hc
            exact hind hc.2
          rw [if_neg hstop] at hfo
          obtain ⟨lines', hrec⟩ := ih { t with iptr := t.iptr + 1 }
            (lines ++ [src]) (t.instructions.getD (t.iptr.toNat + 1) "")
            hq (by show (0 : Int) ≤ t.iptr + 1; omega)
            (by show t.iptr + 1 < (t.instructions.length : Int); omega)
            (by show t.instructions.length + 1 ≤ fuel + (t.iptr + 1).toNat; omega)
          refine ⟨lines', ?_⟩
          rw [hrec]
          dsimp only []
          rw [htoNat, hfo]

theorem skip_body_loop1_spec (h : Nat) : ∀ (fuel : Nat) (t : Thread)
    (lines : List String),
    t.queued = false → 0 ≤ t.iptr →
    t.iptr < (t.instructions.length : Int) →
    t.instructions.length + 1 ≤ fuel + t.iptr.toNat →
    (∃ lines', Thread.skip_body_loop1 h fuel t lines =
      .ok (lines', { t with iptr :=
        (findOutdent t.instructions h (t.iptr.toNat + 1) : Int) })) ∨
    Thread.skip_body_loop1 h fuel t lines =
      .error (.synError "Body of compound statement must be indented.") := by
  intro fuel
  induction fuel with
  | zero =>
    intro t lines hq hi hlt hfuel
    exfalso
    omega
  | succ fuel ih =>
    intro t lines hq hi hlt hfuel
    unfold Thread.skip_body_loop1
    dsimp only []
    rw [next_row_not_queued t hq]
    have htoNat : (t.iptr + 1).toNat = t.iptr.toNat + 1 := by omega
    by_cases hfin : ({ t with iptr := t.iptr + 1 } : Thread).finished = true
    · rw [if_pos hfin]
      left
      have hlen : t.iptr + 1 = (t.instructions.length : Int) := by
        have hge := (finished_iff _).1 hfin
        dsimp only [] at hge
        omega
      have hfo : findOutdent t.instructions h (t.iptr.toNat + 1) =
          t.instructions.length := by
        rw [findOutdent_eq, if_neg (by omega)]
      refine ⟨lines, ?_⟩
      rw [hfo]
      have hcast : ((t.instructions.length : Nat) : Int) = t.iptr + 1 := by omega
      rw [hcast]
    · rw [if_neg hfin]
      have hlt1 : t.iptr + 1 < (t.instructions.length : Int) := by
        have hnl := mt (finished_iff ({ t with iptr := t.iptr + 1 } : Thread)).2 hfin
        dsimp only [] at hnl
        omega
      have hsrc : pyGetStr
          ({ t with iptr := t.iptr + 1 } : Thread).instructions
          ({ t with iptr := t.iptr + 1 } : Thread).iptr =
          t.instructions.getD (t.iptr.toNat + 1) "" := by
        dsimp only []
        rw [pyGetStr_nonneg _ _ (by omega), htoNat]
      rw [hsrc]
      have hfo := findOutdent_eq t.instructions h (t.iptr.toNat + 1)
      rw [if_pos (by omega : t.iptr.toNat + 1 < t.instructions.length)] at hfo
      by_cases hblank : t.instructions.getD (t.iptr.toNat + 1) "" = ""
      · rw [if_pos hblank]
        have hstop : ¬ (t.instructions.getD (t.iptr.toNat + 1) "" ≠ "" ∧
            count_spaces (t.instructions.getD (t.iptr.toNat + 1) "") ≤ h) := by
          intro hc
          exact hc.1 hblank
        rw [if_neg hstop] at hfo
        rcases ih { t with iptr := t.iptr + 1 } lines hq
            (by show (0 : Int) ≤ t.iptr + 1; omega)
            (by show t.iptr + 1 < (t.instructions.length : Int); omega)
            (by show t.instructions.length + 1 ≤ fuel + (t.iptr + 1).toNat; omega)
          with ⟨lines', hrec⟩ | herr
        · left
          refine ⟨lines', ?_⟩
          rw [hrec]
          dsimp only []
          rw [htoNat, hfo]
        · right
          rw [herr]
      · rw [if_neg hblank]
        by_cases hind : count_spaces (t.instructions.getD (t.iptr.toNat + 1) "") ≤ h
        · rw [if_pos hind]
          right
          rfl
        · rw [if_neg hind]
          have hstop : ¬ (t.instructions.getD (t.iptr.toNat + 1) "" ≠ "" ∧
              count_spaces (t.instructions.getD (t.iptr.toNat + 1) "") ≤ h) := by
            intro hc
            exact hind hc.2
          rw [if_neg hstop] at hfo
          left
          obtain ⟨lines', hrec⟩ := skip_body_loop2_spec h fuel
            { t with iptr := t.iptr + 1 } lines
            (t.instructions.getD (t.iptr.toNat + 1) "") hq
            (by show (0 : Int) ≤ t.iptr + 1; omega)
            (by show t.iptr + 1 < (t.instructions.length : Int); omega)
            (by show t.instructions.length + 1 ≤ fuel + (t.iptr + 1).toNat; omega)
          refine ⟨lines', ?_⟩
          rw [hrec]
          dsimp only []
          rw [htoNat, hfo]

theorem skip_body_spec (t : Thread) (hq : t.queued = false) (hi : 0 ≤ t.iptr)
    (hlt : t.iptr < (t.instructions.length : Int)) :
    (∃ lines', t.skip_body = .ok (lines', { t with iptr :=
      (findOutdent t.instructions
        (count_spaces (pyGetStr t.instructions t.iptr))
        (t.iptr.toNat + 1) : Int) })) ∨
    t.skip_body =
      .error (.synError "Body of compound statement must be indented.") := by
  unfold Thread.skip_body
  have hnf : ¬ (t.finished = true) := by rw [finished_iff]; omega
  rw [if_neg hnf]
  exact skip_body_loop1_spec _ (t.instructions.length + 2) t _ hq hi hlt (by omega)

/-! ## Classification of definition headers by the evaluator -/

theorem tryExec_def_class (pick : Pick) (sim : Sim) (tid : Nat) (s : String)
    (kw : String) (hhead : (pySplit s).head? = some kw)
    (hdc : kw = "def" ∨ kw = "class") :
    tryExec pick sim tid s = .syntaxFail := by
  have hs : s ≠ "" := by
    intro hempty
    rw [hempty] at hhead
    have hnil : pySplit "" = [] := rfl
    rw [hnil] at hhead
    exact Option.noConfusion hhead
  obtain ⟨rest, hrest⟩ : ∃ rest, pySplit s = kw :: rest := by
    cases hsp : pySplit s with
    | nil =>
      rw [hsp] at hhead
      exact absurd hhead (by simp)
    | cons a l =>
      rw [hsp] at hhead
      simp only [List.head?_cons, Option.some.injEq] at hhead
      exact ⟨l, by rw [hhead]⟩
  have hident : isIdent kw = false := by
    rcases hdc with h | h <;> subst h <;> decide
  have hpass : kw ≠ "pass" := by
    rcases hdc with h | h <;> subst h <;> decide
  have hcall : parseCallToken kw = none := by
    rcases hdc with h | h <;> subst h <;> decide
  unfold tryExec
  rw [if_neg hs]
  dsimp only []
  rw [hrest]
  by_cases h1 : (kw :: rest).length = 1
  · rw [if_pos h1]
    rw [List.getD_cons_zero]
    rw [if_neg hpass]
    rw [hident]
    rw [if_neg Bool.false_ne_true]
    rw [hcall]
  · rw [if_neg h1]
    by_cases h3 : (kw :: rest).length = 3 ∧ (kw :: rest).getD 1 "" = "="
    · rw [if_pos h3]
      rw [List.getD_cons_zero, hident]
      rw [if_neg Bool.false_ne_true]
    · rw [if_neg h3]
      by_cases h5 : (kw :: rest).length = 5 ∧ (kw :: rest).getD 1 "" = "="
      · rw [if_pos h5]
        rw [List.getD_cons_zero, hident, Bool.false_and, Bool.false_and,
          Bool.false_and]
        rw [if_neg Bool.false_ne_true]
      · rw [if_neg h5]

theorem exec_line_def_class (pick : Pick) (sim : Sim) (tid : Nat)
    (source : String) (kw : String)
    (hhead : (pySplit (pyStrip source)).head? = some kw)
    (hdc : kw = "def" ∨ kw = "class") :
    exec_line pick sim tid source =
      match handle_def sim tid with
      | .error e => .error e
      | .ok sim' => .ok (sim', false) := by
  obtain ⟨rest, hrest⟩ : ∃ rest, pySplit (pyStrip source) = kw :: rest := by
    cases hsp : pySplit (pyStrip source) with
    | nil =>
      rw [hsp] at hhead
      exact absurd hhead (by simp)
    | cons a l =>
      rw [hsp] at hhead
      simp only [List.head?_cons, Option.some.injEq] at hhead
      exact ⟨l, by rw [hhead]⟩
  unfold exec_line
  dsimp only []
  rw [tryExec_def_class pick sim tid _ kw hhead hdc]
  rw [hrest]
  dsimp only []
  have hnotcond : ¬ (kw = "if" ∨ kw = "else:" ∨ kw = "while") := by
    rcases hdc with h | h <;> subst h <;> decide
  rw [if_neg hnotcond, if_pos hdc]

/-! ## C5: definition headers -/

/-- C5: when a thread's current line is a definition header (`def`/`class`
keyword, rejected by the evaluator's compile) with no pending loop frame
and a body that skips cleanly, `step` captures the whole indented body via
`skip_body`, submits the joined lines to the evaluator as ONE definition
(`defsSubmitted` grows by exactly one entry), resets the pointer to the
header row, treats the header as a false conditional and skips the body a
second time, so the pointer lands just past the body: on the first row
after the header that is non-blank with indentation at most the header's,
or at the end of the column (`findOutdent`).  The shared bindings are
untouched. -/
theorem def_header_double_skip (pick : Pick) (sim : Sim) (tid : Nat)
    (kw : String) (lines : List String) (t' : Thread)
    (htid : tid < sim.store.length)
    (hq : (sim.thread tid).queued = false)
    (hf : (sim.thread tid).finished = false)
    (hws : (sim.thread tid).while_stack = [])
    (hi : 0 ≤ (sim.thread tid).iptr)
    (hhead : (pySplit (pyStrip (pyGetStr (sim.thread tid).instructions
      (sim.thread tid).iptr))).head? = some kw)
    (hdc : kw = "def" ∨ kw = "class")
    (hskip : (sim.thread tid).skip_body = .ok (lines, t')) :
    ∃ sim₂, stepSim pick sim tid = .ok sim₂ ∧
      sim₂.defsSubmitted = sim.defsSubmitted ++
        [String.intercalate "\n" lines ++ "\n"] ∧
      sim₂.thread tid = { sim.thread tid with iptr := t'.iptr } ∧
      sim₂.locals = sim.locals ∧
      t'.iptr = (findOutdent (sim.thread tid).instructions
        (count_spaces (pyGetStr (sim.thread tid).instructions
          (sim.thread tid).iptr))
        ((sim.thread tid).iptr.toNat + 1) : Int) := by
  have hq' : ¬ ((sim.thread tid).queued = true) := by rw [hq]; simp
  have hf' : ¬ ((sim.thread tid).finished = true) := by rw [hf]; simp
  have hlt : (sim.thread tid).iptr <
      ((sim.thread tid).instructions.length : Int) := by
    rw [finished_iff] at hf'
    omega
  have hcew : (sim.thread tid).check_end_while = sim.thread tid :=
    check_end_while_nil _ hws
  rcases skip_body_spec (sim.thread tid) hq hi hlt with ⟨lines2, hok⟩ | herr
  swap
  · rw [hskip] at herr
    exact absurd herr (by simp)
  rw [hskip] at hok
  have hinj : lines = lines2 ∧ t' = { sim.thread tid with iptr :=
      (findOutdent (sim.thread tid).instructions
        (count_spaces (pyGetStr (sim.thread tid).instructions
          (sim.thread tid).iptr))
        ((sim.thread tid).iptr.toNat + 1) : Int) } := by
    simpa using hok
  have ht' := hinj.2
  -- the post-exec world: definition recorded, pointer back on the header
  have hthreada : (sim.setThread tid (sim.thread tid)).thread tid =
      sim.thread tid := by
    rw [thread_setThread, if_pos htid]
  have hhd : handle_def (sim.setThread tid (sim.thread tid)) tid =
      .ok (({ sim.setThread tid (sim.thread tid) with
          defsSubmitted := (sim.setThread tid (sim.thread tid)).defsSubmitted ++
            [String.intercalate "\n" lines ++ "\n"] }).setThread tid
        { t' with iptr := (sim.thread tid).iptr }) := by
    unfold handle_def
    dsimp only []
    rw [hthreada, hskip]
  have hback : ({ t' with iptr := (sim.thread tid).iptr } : Thread) =
      sim.thread tid := by
    rw [ht']
  have hvalid2 : tid < (({ sim.setThread tid (sim.thread tid) with
      defsSubmitted := (sim.setThread tid (sim.thread tid)).defsSubmitted ++
        [String.intercalate "\n" lines ++ "\n"] }).setThread tid
      { t' with iptr := (sim.thread tid).iptr }).store.length := by
    show tid < (((sim.setThread tid (sim.thread tid)).store.set tid _).length)
    rw [List.length_set, setThread_store_length]
    exact htid
  have hthreadc : (({ sim.setThread tid (sim.thread tid) with
      defsSubmitted := (sim.setThread tid (sim.thread tid)).defsSubmitted ++
        [String.intercalate "\n" lines ++ "\n"] }).setThread tid
      { t' with iptr := (sim.thread tid).iptr }).thread tid =
      ({ t' with iptr := (sim.thread tid).iptr } : Thread) := by
    rw [thread_setThread]
    rw [if_pos ?hv]
    case hv =>
      show tid < (({ sim.setThread tid (sim.thread tid) with
        defsSubmitted := _ }).store.length)
      show tid < ((sim.setThread tid (sim.thread tid)).store.length)
      rw [setThread_store_length]
      exact htid
  have hstep : stepSim pick sim tid =
      .ok ((({ sim.setThread tid (sim.thread tid) with
          defsSubmitted := (sim.setThread tid (sim.thread tid)).defsSubmitted ++
            [String.intercalate "\n" lines ++ "\n"] }).setThread tid
        { t' with iptr := (sim.thread tid).iptr }).setThread tid t') := by
    unfold stepSim
    dsimp only []
    rw [if_neg hq', if_neg hf', hcew]
    rw [exec_line_def_class pick _ tid _ kw hhead hdc]
    rw [hhd]
    dsimp only []
    rw [if_neg Bool.false_ne_true]
    rw [hthreadc, hback, hskip]
  refine ⟨_, hstep, ?_, ?_, ?_, ?_⟩
  · rfl
  · rw [thread_setThread, if_pos hvalid2, ht']
  · rfl
  · rw [ht']


theorem def_header_double_skip_witness :
    ∃ sim₂, stepSim pick0 defSim 0 = .ok sim₂ ∧
      sim₂.defsSubmitted = defSim.defsSubmitted ++
        [String.intercalate "\n"
          ["def f():", "    x = 0", "", "    y = 1"] ++ "\n"] ∧
      sim₂.thread 0 = { defSim.thread 0 with iptr := defSimSkipped.iptr } ∧
      sim₂.locals = defSim.locals ∧
      defSimSkipped.iptr = (findOutdent (defSim.thread 0).instructions
        (count_spaces (pyGetStr (defSim.thread 0).instructions
          (defSim.thread 0).iptr))
        ((defSim.thread 0).iptr.toNat + 1) : Int) :=
  def_header_double_skip pick0 defSim 0 "def"
    ["def f():", "    x = 0", "", "    y = 1"] defSimSkipped (by decide)
    (by decide) (by decide) (by decide) (by decide) (by decide) (by decide)
    (by decide)

theorem skip_body_unindented (t : Thread) (hq : t.queued = false)
    (hi : 0 ≤ t.iptr)
    (hnext : t.iptr.toNat + 1 < t.instructions.length)
    (hnb : t.instructions.getD (t.iptr.toNat + 1) "" ≠ "")
    (hind : count_spaces (t.instructions.getD (t.iptr.toNat + 1) "") ≤
      count_spaces (t.instructions.getD t.iptr.toNat "")) :
    t.skip_body =
      .error (.synError "Body of compound statement must be indented.") := by
  unfold Thread.skip_body
  have hnf : ¬ (t.finished = true) := by
    rw [finished_iff]
    omega
  rw [if_neg hnf]
  dsimp only []
  rw [pyGetStr_nonneg _ _ hi]
  have h2 : t.instructions.length + 2 = (t.instructions.length + 1) + 1 := rfl
  rw [h2]
  unfold Thread.skip_body_loop1
  dsimp only []
  rw [next_row_not_queued t hq]
  have hfin1 : ¬ ((({ t with iptr := t.iptr + 1 } : Thread)).finished = true) := by
    rw [finished_iff]
    show ¬ ((t.instructions.length : Int) ≤ t.iptr + 1)
    omega
  rw [if_neg hfin1]
  have hsrc : pyGetStr ({ t with iptr := t.iptr + 1 } : Thread).instructions
      ({ t with iptr := t.iptr + 1 } : Thread).iptr =
      t.instructions.getD (t.iptr.toNat + 1) "" := by
    dsimp only []
    rw [pyGetStr_nonneg _ _ (by omega)]
    have : (t.iptr + 1).toNat = t.iptr.toNat + 1 := by omega
    rw [this]
  rw [hsrc]
  rw [if_neg hnb]
  rw [if_pos hind]

/-- C8 amended: the "body must be indented" check runs only when the
engine has to SKIP a body.  Stepping onto a header that resolves by
skipping — a conditional whose execution returned flag false, or a
`def`/`class` header — raises the error when the immediately following
line is non-blank at the same or lesser indentation; a header whose
condition evaluates true simply advances into the following line with no
indentation check at all (see the counterexample). -/
theorem step_skip_unindented_error (pick : Pick) (sim sim₁ : Sim) (tid : Nat)
    (htid : tid < sim.store.length)
    (hq : (sim.thread tid).queued = false)
    (hf : (sim.thread tid).finished = false)
    (hws : (sim.thread tid).while_stack = [])
    (hi : 0 ≤ (sim.thread tid).iptr)
    (hnext : (sim.thread tid).iptr.toNat + 1 <
      (sim.thread tid).instructions.length)
    (hnb : (sim.thread tid).instructions.getD
      ((sim.thread tid).iptr.toNat + 1) "" ≠ "")
    (hind : count_spaces ((sim.thread tid).instructions.getD
        ((sim.thread tid).iptr.toNat + 1) "") ≤
      count_spaces ((sim.thread tid).instructions.getD
        (sim.thread tid).iptr.toNat ""))
    (hres : (exec_line pick (sim.setThread tid (sim.thread tid)) tid
        (pyGetStr (sim.thread tid).instructions (sim.thread tid).iptr) =
          .ok (sim₁, false) ∧
        (sim₁.thread tid).queued = false ∧
        (sim₁.thread tid).iptr = (sim.thread tid).iptr ∧
        (sim₁.thread tid).instructions = (sim.thread tid).instructions) ∨
      ((pySplit (pyStrip (pyGetStr (sim.thread tid).instructions
          (sim.thread tid).iptr))).head? = some "def" ∨
        (pySplit (pyStrip (pyGetStr (sim.thread tid).instructions
          (sim.thread tid).iptr))).head? = some "class")) :
    stepSim pick sim tid =
      .error (.synError "Body of compound statement must be indented.") := by
  have hq' : ¬ ((sim.thread tid).queued = true) := by rw [hq]; simp
  have hf' : ¬ ((sim.thread tid).finished = true) := by rw [hf]; simp
  have hcew : (sim.thread tid).check_end_while = sim.thread tid :=
    check_end_while_nil _ hws
  have hthreada : (sim.setThread tid (sim.thread tid)).thread tid =
      sim.thread tid := by
    rw [thread_setThread, if_pos htid]
  rcases hres with ⟨hexec, hq1, hi1, hinstr1⟩ | hdef
  · unfold stepSim
    dsimp only []
    rw [if_neg hq', if_neg hf', hcew, hexec]
    dsimp only []
    rw [if_neg Bool.false_ne_true]
    have herr := skip_body_unindented (sim₁.thread tid) hq1
      (by rw [hi1]; exact hi)
      (by rw [hi1, hinstr1]; exact hnext)
      (by rw [hi1, hinstr1]; exact hnb)
      (by rw [hi1, hinstr1]; exact hind)
    rw [herr]
  · have herr := skip_body_unindented (sim.thread tid) hq hi hnext hnb hind
    have hhd : handle_def (sim.setThread tid (sim.thread tid)) tid =
        .error (.synError "Body of compound statement must be indented.") := by
      unfold handle_def
      dsimp only []
      rw [hthreada, herr]
    unfold stepSim
    dsimp only []
    rw [if_neg hq', if_neg hf', hcew]
    rcases hdef with hd | hd
    · rw [exec_line_def_class pick _ tid _ "def" hd (Or.inl rfl)]
      rw [hhd]
    · rw [exec_line_def_class pick _ tid _ "class" hd (Or.inr rfl)]
      rw [hhd]


theorem step_skip_unindented_error_witness :
    stepSim pick0 falseCondSim 0 =
      .error (.synError "Body of compound statement must be indented.") :=
  step_skip_unindented_error pick0 falseCondSim falseCondSimAfter 0
    (by decide) (by decide) (by decide) (by decide) (by decide) (by decide)
    (by decide) (by decide)
    (Or.inl ⟨by decide, by decide, by decide, by decide⟩)

end Swampy